import Mathlib

/-!
# Memoized value cells (`src/strategy/Value.h`)

A shallow embedding of the value-cell class ladder
`CalculatedValue` / `SingleCalculatedValue` / `MemoryCalculatedValue` / `LogCalculatedValue`,
of `BoolCalculatedValue::Format` and of `ManualSetValue`.

Modelling conventions.

* `time_t` is a signed 64-bit integer on the supported targets; it is embedded as `Int`.
  The only arithmetic done on it is the subtraction of two clock readings, which stays far
  inside the 64-bit range, and the comparison with a `uint32` operand is carried out in the
  signed 64-bit type (the `uint32` is converted), hence as a comparison in `Int`.
* `uint32` / `uint8` fields (`checkInterval`, `minChangeInterval`, `logLength`) are `Nat`;
  they are only halved and compared, never incremented.
* `time(0)` is the parameter `now` of each member function: every clock read made while one
  member function runs observes the same second.  `LastChangeDelay` is the exception: the
  read of its left operand is a parameter of its own, apart from the reading observed inside
  the `LastChangeOn()` it calls, because the two are subtracted from one another.
* The pure-virtual members `Calculate` and `EqualToLast` are parameters.  `Calculate` reads and
  may advance the owning context `σ`; it never touches the fields of the cell.  The context is
  paired with a counter of `Calculate` invocations, which is what the statements about
  "invokes `Calculate`" are phrased over.
* The members of a class never change `checkInterval`, `minChangeInterval` or `logLength`.
-/

namespace Playerbots

/-! ## Owning context -/

/-- Owning context of a cell: `ctx` is the state `Calculate` reads and may advance, `calls`
counts the invocations of `Calculate` made so far. -/
structure World (σ : Type) where
  ctx : σ
  calls : Nat
deriving DecidableEq, Repr

/-- One invocation of the pure-virtual `Calculate()` (the statement `value = Calculate();`
bracketed by the performance-monitor span): yields the computed value and the context after
the call, with the invocation counted. -/
def invokeCalculate {σ T : Type} (Calculate : σ → T × σ) (w : World σ) : T × World σ :=
  ((Calculate w.ctx).1, { ctx := (Calculate w.ctx).2, calls := w.calls + 1 })

/-! ## `CalculatedValue<T>` -/

/-- Fields of `CalculatedValue<T>`: `uint32 checkInterval; time_t lastCheckTime; T value;`. -/
structure CalculatedValue (T : Type) where
  checkInterval : Nat
  lastCheckTime : Int
  value : T
deriving DecidableEq, Repr

namespace CalculatedValue

variable {σ T : Type}

/-- Constructor `CalculatedValue(botAI, name, checkInterval)`: stores the `uint32` argument and
sets `lastCheckTime(0)`; `value` is left as whatever `T` default-initialises to (`init`). -/
def new (checkInterval : Nat) (init : T) : CalculatedValue T :=
  { checkInterval := checkInterval % 2 ^ 32, lastCheckTime := 0, value := init }

/-- Condition of the `if` in `CalculatedValue::Get`:
`!lastCheckTime || checkInterval < 2 || now - lastCheckTime >= checkInterval / 2`
(the right operand is the `uint32` quotient, converted to the signed type of the difference). -/
abbrev mustRecompute (now : Int) (s : CalculatedValue T) : Prop :=
  s.lastCheckTime = 0 ∨ s.checkInterval < 2
    ∨ now - s.lastCheckTime ≥ ((s.checkInterval / 2 : Nat) : Int)

/-- Member `CalculatedValue::Get` run at clock reading `now`: the returned value, the cell
afterwards and the context afterwards. -/
def Get (Calculate : σ → T × σ) (now : Int) (s : CalculatedValue T) (w : World σ) :
    T × CalculatedValue T × World σ :=
  if mustRecompute now s then
    let s1 := { s with lastCheckTime := now }
    let r := invokeCalculate Calculate w
    (r.1, { s1 with value := r.1 }, r.2)
  else
    (s.value, s, w)

/-- Member `CalculatedValue::LazyGet`: `if (!lastCheckTime) return Get(); return value;`. -/
def LazyGet (Calculate : σ → T × σ) (now : Int) (s : CalculatedValue T) (w : World σ) :
    T × CalculatedValue T × World σ :=
  if s.lastCheckTime = 0 then Get Calculate now s w else (s.value, s, w)

/-- Member `CalculatedValue::Set`: `value = val;`. -/
def Set (val : T) (s : CalculatedValue T) : CalculatedValue T :=
  { s with value := val }

/-- Member `CalculatedValue::Reset`: `lastCheckTime = 0;`. -/
def Reset (s : CalculatedValue T) : CalculatedValue T :=
  { s with lastCheckTime := 0 }

/-- Successive calls of `Get`, one per clock reading of the list: the returned values in call
order, the final cell and the final context. -/
def runGets (Calculate : σ → T × σ) :
    List Int → CalculatedValue T → World σ → List T × CalculatedValue T × World σ
  | [], s, w => ([], s, w)
  | t :: ts, s, w =>
    ((Get Calculate t s w).1 ::
        (runGets Calculate ts (Get Calculate t s w).2.1 (Get Calculate t s w).2.2).1,
      (runGets Calculate ts (Get Calculate t s w).2.1 (Get Calculate t s w).2.2).2)

/-- Public member functions of a `CalculatedValue` cell, as issued by a caller. -/
inductive Op (T : Type) where
  | get
  | lazyGet
  | set (val : T)
  | reset
deriving DecidableEq, Repr

/-- One call issued at clock reading `now`: the cell and the context afterwards. -/
def Op.exec (Calculate : σ → T × σ) (now : Int) :
    Op T → CalculatedValue T → World σ → CalculatedValue T × World σ
  | .get, s, w => (Get Calculate now s w).2
  | .lazyGet, s, w => (LazyGet Calculate now s w).2
  | .set val, s, w => (Set val s, w)
  | .reset, s, w => (Reset s, w)

/-- A sequence of timed calls, executed left to right. -/
def run (Calculate : σ → T × σ) :
    List (Int × Op T) → CalculatedValue T → World σ → CalculatedValue T × World σ
  | [], s, w => (s, w)
  | c :: cs, s, w =>
    run Calculate cs (Op.exec Calculate c.1 c.2 s w).1 (Op.exec Calculate c.1 c.2 s w).2

end CalculatedValue

/-! ## Sample `Calculate` implementations -/

/-- A `Calculate` that returns an incrementing counter kept in the context: from context `0`
its successive results are `1, 2, 3, ...`. -/
def counterCalculate (n : Nat) : Nat × Nat :=
  (n + 1, n + 1)

/-- A `Calculate` whose successive results from context `0` are `100, 200, 300, ...`. -/
def hundredsCalculate (n : Nat) : Nat × Nat :=
  (100 * (n + 1), n + 1)

/-! ## `SingleCalculatedValue<T>` -/

namespace SingleCalculatedValue

variable {σ T : Type}

/-- Constructor `SingleCalculatedValue(botAI, name)`: the base constructor with its default
`checkInterval = 1`, followed by `this->Reset()`. -/
def new (init : T) : CalculatedValue T :=
  CalculatedValue.Reset (CalculatedValue.new 1 init)

/-- Override `SingleCalculatedValue::Get`: the guard is `!this->lastCheckTime` alone. -/
def Get (Calculate : σ → T × σ) (now : Int) (s : CalculatedValue T) (w : World σ) :
    T × CalculatedValue T × World σ :=
  if s.lastCheckTime = 0 then
    let s1 := { s with lastCheckTime := now }
    let r := invokeCalculate Calculate w
    (r.1, { s1 with value := r.1 }, r.2)
  else
    (s.value, s, w)

/-- Successive calls of the overriding `Get`, one per clock reading of the list. -/
def runGets (Calculate : σ → T × σ) :
    List Int → CalculatedValue T → World σ → List T × CalculatedValue T × World σ
  | [], s, w => ([], s, w)
  | t :: ts, s, w =>
    ((Get Calculate t s w).1 ::
        (runGets Calculate ts (Get Calculate t s w).2.1 (Get Calculate t s w).2.2).1,
      (runGets Calculate ts (Get Calculate t s w).2.1 (Get Calculate t s w).2.2).2)

end SingleCalculatedValue

/-! ## `MemoryCalculatedValue<T>` -/

/-- Fields of `MemoryCalculatedValue<T>` on top of the base class:
`T lastValue; uint32 minChangeInterval; time_t lastChangeTime;`. -/
structure MemoryCalculatedValue (T : Type) extends CalculatedValue T where
  lastValue : T
  minChangeInterval : Nat
  lastChangeTime : Int
deriving DecidableEq, Repr

namespace MemoryCalculatedValue

variable {σ T : Type}

/-- Constructor `MemoryCalculatedValue(botAI, name, checkInterval)` run at clock reading `now`:
the `int32` argument is converted to the `uint32` parameter of the base constructor and
`lastChangeTime = time(0)`.  `minChangeInterval` is the value the concrete class leaves in the
protected field (the in-class initialiser gives `0`); `init` and `initLast` stand for the
default-initialised `value` and `lastValue`. -/
def new (now : Int) (checkInterval : Int) (minChangeInterval : Nat) (init initLast : T) :
    MemoryCalculatedValue T :=
  { toCalculatedValue := CalculatedValue.new (checkInterval % 2 ^ 32).toNat init
    lastValue := initLast
    minChangeInterval := minChangeInterval % 2 ^ 32
    lastChangeTime := now }

/-- Member `CanCheckChange`:
`time(0) - lastChangeTime < minChangeInterval || EqualToLast(this->value)`.
The pure-virtual `EqualToLast` sees the fields of the cell and the candidate. -/
def CanCheckChange (EqualToLast : MemoryCalculatedValue T → T → Bool) (now : Int)
    (s : MemoryCalculatedValue T) : Bool :=
  decide (now - s.lastChangeTime < (s.minChangeInterval : Int)) || EqualToLast s s.value

/-- Member `MemoryCalculatedValue::UpdateChange`: the returned flag and the cell afterwards. -/
def UpdateChange (EqualToLast : MemoryCalculatedValue T → T → Bool) (now : Int)
    (s : MemoryCalculatedValue T) : Bool × MemoryCalculatedValue T :=
  if CanCheckChange EqualToLast now s then
    (false, s)
  else
    let s1 := { s with lastChangeTime := now }
    (true, { s1 with lastValue := s1.value })

/-- First statement of `Set`: `CalculatedValue<T>::Set(this->value);` (the parameter is
unused). -/
def afterBaseSet (s : MemoryCalculatedValue T) : MemoryCalculatedValue T :=
  { s with toCalculatedValue := CalculatedValue.Set s.value s.toCalculatedValue }

/-- Override `MemoryCalculatedValue::Set`: the base `Set` on the current value, then
`UpdateChange()` with its result dropped. -/
def Set (EqualToLast : MemoryCalculatedValue T → T → Bool) (now : Int) (_value : T)
    (s : MemoryCalculatedValue T) : MemoryCalculatedValue T :=
  (UpdateChange EqualToLast now (afterBaseSet s)).2

/-- First statement of `Get`: `this->value = CalculatedValue<T>::Get();`. -/
def afterBaseGet (Calculate : σ → T × σ) (now : Int) (s : MemoryCalculatedValue T)
    (w : World σ) : MemoryCalculatedValue T × World σ :=
  let r := CalculatedValue.Get Calculate now s.toCalculatedValue w
  ({ s with toCalculatedValue := { r.2.1 with value := r.1 } }, r.2.2)

/-- Override `MemoryCalculatedValue::Get`: the base `Get`, then `UpdateChange()` with its
result dropped, then `return this->value`. -/
def Get (Calculate : σ → T × σ) (EqualToLast : MemoryCalculatedValue T → T → Bool) (now : Int)
    (s : MemoryCalculatedValue T) (w : World σ) : T × MemoryCalculatedValue T × World σ :=
  let p := afterBaseGet Calculate now s w
  let s2 := (UpdateChange EqualToLast now p.1).2
  (s2.value, s2, p.2)

/-- `Get` of a tracked cell as the specification words it: delegate to the base time-windowed
`Get`, then run `UpdateChange` on the resulting cell ignoring its result, and return the value
the base `Get` returned. -/
def GetAsSpecified (Calculate : σ → T × σ) (EqualToLast : MemoryCalculatedValue T → T → Bool)
    (now : Int) (s : MemoryCalculatedValue T) (w : World σ) :
    T × MemoryCalculatedValue T × World σ :=
  ((CalculatedValue.Get Calculate now s.toCalculatedValue w).1,
    (UpdateChange EqualToLast now
      { s with toCalculatedValue :=
        (CalculatedValue.Get Calculate now s.toCalculatedValue w).2.1 }).2,
    (CalculatedValue.Get Calculate now s.toCalculatedValue w).2.2)

/-- Override `MemoryCalculatedValue::LazyGet`: `return this->value;`. -/
def LazyGet (s : MemoryCalculatedValue T) : T × MemoryCalculatedValue T :=
  (s.value, s)

/-- Member `LastChangeOn`: `Get(); UpdateChange(); return lastChangeTime;`. -/
def LastChangeOn (Calculate : σ → T × σ) (EqualToLast : MemoryCalculatedValue T → T → Bool)
    (now : Int) (s : MemoryCalculatedValue T) (w : World σ) :
    Int × MemoryCalculatedValue T × World σ :=
  let g := Get Calculate EqualToLast now s w
  let s2 := (UpdateChange EqualToLast now g.2.1).2
  (s2.lastChangeTime, s2, g.2.2)

/-- Override `MemoryCalculatedValue::Reset`: the base `Reset`, then
`lastChangeTime = time(0)`. -/
def Reset (now : Int) (s : MemoryCalculatedValue T) : MemoryCalculatedValue T :=
  { s with toCalculatedValue := CalculatedValue.Reset s.toCalculatedValue, lastChangeTime := now }

/-- What a trace of a tracked cell records: its construction, each `Reset`, and each execution
of `UpdateChange` that returned `true`, with the clock reading at which it happened. -/
inductive ChangeEvent where
  | constructed (t : Int)
  | reset (t : Int)
  | recognized (t : Int)
deriving DecidableEq, Repr

/-- Clock reading of an event. -/
def ChangeEvent.time : ChangeEvent → Int
  | .constructed t => t
  | .reset t => t
  | .recognized t => t

/-- Whether the event is an `UpdateChange` that returned `true`. -/
def ChangeEvent.isRecognized : ChangeEvent → Bool
  | .recognized _ => true
  | _ => false

/-- Event left by one execution of `UpdateChange` whose result was `b`. -/
def noteChange (b : Bool) (now : Int) : List ChangeEvent :=
  if b then [ChangeEvent.recognized now] else []

/-- Public member functions of a `MemoryCalculatedValue` cell, as issued by a caller. -/
inductive Op (T : Type) where
  | get
  | lazyGet
  | set (val : T)
  | updateChange
  | lastChangeOn
  | reset
deriving DecidableEq, Repr

/-- One call issued at clock reading `now`: the cell and the context afterwards, and the events
of the call in the order they happened (one per `UpdateChange` executed that returned `true`,
one for a `Reset`). -/
def Op.exec (Calculate : σ → T × σ) (EqualToLast : MemoryCalculatedValue T → T → Bool)
    (now : Int) : Op T → MemoryCalculatedValue T → World σ →
      MemoryCalculatedValue T × World σ × List ChangeEvent
  | .get, s, w =>
    ((Get Calculate EqualToLast now s w).2.1, (Get Calculate EqualToLast now s w).2.2,
      noteChange (UpdateChange EqualToLast now (afterBaseGet Calculate now s w).1).1 now)
  | .lazyGet, s, w => ((LazyGet s).2, w, [])
  | .set val, s, w =>
    (Set EqualToLast now val s, w,
      noteChange (UpdateChange EqualToLast now (afterBaseSet s)).1 now)
  | .updateChange, s, w =>
    ((UpdateChange EqualToLast now s).2, w, noteChange (UpdateChange EqualToLast now s).1 now)
  | .lastChangeOn, s, w =>
    ((LastChangeOn Calculate EqualToLast now s w).2.1,
      (LastChangeOn Calculate EqualToLast now s w).2.2,
      noteChange (UpdateChange EqualToLast now (afterBaseGet Calculate now s w).1).1 now
        ++ noteChange
            (UpdateChange EqualToLast now (Get Calculate EqualToLast now s w).2.1).1 now)
  | .reset, s, w => (Reset now s, w, [ChangeEvent.reset now])

/-- A sequence of timed calls, executed left to right: the final cell and context, and all
events in chronological order. -/
def run (Calculate : σ → T × σ) (EqualToLast : MemoryCalculatedValue T → T → Bool) :
    List (Int × Op T) → MemoryCalculatedValue T → World σ →
      MemoryCalculatedValue T × World σ × List ChangeEvent
  | [], s, w => (s, w, [])
  | c :: cs, s, w =>
    ((run Calculate EqualToLast cs (Op.exec Calculate EqualToLast c.1 c.2 s w).1
        (Op.exec Calculate EqualToLast c.1 c.2 s w).2.1).1,
      (run Calculate EqualToLast cs (Op.exec Calculate EqualToLast c.1 c.2 s w).1
        (Op.exec Calculate EqualToLast c.1 c.2 s w).2.1).2.1,
      (Op.exec Calculate EqualToLast c.1 c.2 s w).2.2
        ++ (run Calculate EqualToLast cs (Op.exec Calculate EqualToLast c.1 c.2 s w).1
            (Op.exec Calculate EqualToLast c.1 c.2 s w).2.1).2.2)

end MemoryCalculatedValue

/-- A sample `EqualToLast`: plain equality of the candidate with the recorded `lastValue`. -/
def sameAsLast (s : MemoryCalculatedValue Nat) (candidate : Nat) : Bool :=
  candidate == s.lastValue

/-! ## `LogCalculatedValue<T>` -/

/-- Fields of `LogCalculatedValue<T>` on top of `MemoryCalculatedValue<T>`:
`std::list<std::pair<T, time_t>> valueLog; uint8 logLength;`.  The front of the `std::list`
is the head of the `List`. -/
structure LogCalculatedValue (T : Type) extends MemoryCalculatedValue T where
  valueLog : List (T × Int)
  logLength : Nat
deriving DecidableEq, Repr

namespace LogCalculatedValue

variable {σ T : Type}

/-- Constructor `LogCalculatedValue(botAI, name, checkInterval)`: the base constructor, an
empty `valueLog` and the in-class initialiser `logLength = 10`. -/
def new (now : Int) (checkInterval : Int) (minChangeInterval : Nat) (init initLast : T) :
    LogCalculatedValue T :=
  { toMemoryCalculatedValue :=
      MemoryCalculatedValue.new now checkInterval minChangeInterval init initLast
    valueLog := []
    logLength := 10 }

/-- Override `LogCalculatedValue::UpdateChange`: when the base member returns `true` the
result is `false`; otherwise `(value, time(0))` is pushed at the back, the front is popped if
`valueLog.size() > logLength`, and the result is `true`. -/
def UpdateChange (EqualToLast : MemoryCalculatedValue T → T → Bool) (now : Int)
    (s : LogCalculatedValue T) : Bool × LogCalculatedValue T :=
  let b := MemoryCalculatedValue.UpdateChange EqualToLast now s.toMemoryCalculatedValue
  let s1 := { s with toMemoryCalculatedValue := b.2 }
  if b.1 then
    (false, s1)
  else
    let s2 := { s1 with valueLog := s1.valueLog ++ [(s1.value, now)] }
    if s2.valueLog.length > s2.logLength then
      (true, { s2 with valueLog := s2.valueLog.tail })
    else
      (true, s2)

/-- Member `ValueLog`: a copy of the log. -/
def ValueLog (s : LogCalculatedValue T) : List (T × Int) :=
  s.valueLog

/-- Inherited `MemoryCalculatedValue::Set` on a log cell: the virtual call `UpdateChange()`
resolves to the override. -/
def Set (EqualToLast : MemoryCalculatedValue T → T → Bool) (now : Int) (_value : T)
    (s : LogCalculatedValue T) : LogCalculatedValue T :=
  (UpdateChange EqualToLast now
    { s with toMemoryCalculatedValue :=
      MemoryCalculatedValue.afterBaseSet s.toMemoryCalculatedValue }).2

/-- Inherited `MemoryCalculatedValue::Get` on a log cell: the virtual call `UpdateChange()`
resolves to the override. -/
def Get (Calculate : σ → T × σ) (EqualToLast : MemoryCalculatedValue T → T → Bool) (now : Int)
    (s : LogCalculatedValue T) (w : World σ) : T × LogCalculatedValue T × World σ :=
  let p := MemoryCalculatedValue.afterBaseGet Calculate now s.toMemoryCalculatedValue w
  let s2 := (UpdateChange EqualToLast now { s with toMemoryCalculatedValue := p.1 }).2
  (s2.value, s2, p.2)

/-- Inherited `MemoryCalculatedValue::LastChangeOn` on a log cell: `Get(); UpdateChange();`
with both virtual calls resolved to the override. -/
def LastChangeOn (Calculate : σ → T × σ) (EqualToLast : MemoryCalculatedValue T → T → Bool)
    (now : Int) (s : LogCalculatedValue T) (w : World σ) :
    Int × LogCalculatedValue T × World σ :=
  let g := Get Calculate EqualToLast now s w
  let s2 := (UpdateChange EqualToLast now g.2.1).2
  (s2.lastChangeTime, s2, g.2.2)

/-- Override `LogCalculatedValue::Reset`: the base `Reset`, then `valueLog.clear()`. -/
def Reset (now : Int) (s : LogCalculatedValue T) : LogCalculatedValue T :=
  { s with
    toMemoryCalculatedValue := MemoryCalculatedValue.Reset now s.toMemoryCalculatedValue
    valueLog := [] }

/-- Inherited `MemoryCalculatedValue::LazyGet` on a log cell: `return this->value;`. -/
def LazyGet (s : LogCalculatedValue T) : T × LogCalculatedValue T :=
  (s.value, s)

/-- Entries pushed at the back of the log by one execution of `UpdateChange` on `s`: the pair
`(this->value, time(0))` when the base member returned `false`, nothing otherwise. -/
def pushed (EqualToLast : MemoryCalculatedValue T → T → Bool) (now : Int)
    (s : LogCalculatedValue T) : List (T × Int) :=
  if (MemoryCalculatedValue.UpdateChange EqualToLast now s.toMemoryCalculatedValue).1 then []
  else [((MemoryCalculatedValue.UpdateChange EqualToLast now s.toMemoryCalculatedValue).2.value,
          now)]

/-- Public member functions of a `LogCalculatedValue` cell, as issued by a caller. -/
inductive Op (T : Type) where
  | get
  | lazyGet
  | set (val : T)
  | updateChange
  | lastChangeOn
  | reset
deriving DecidableEq, Repr

/-- One call issued at clock reading `now`.  Besides the cell and the context, the list of
entries pushed since construction or the last `Reset` is threaded through: every executed
`UpdateChange` contributes what it pushed, `Reset` starts the list afresh. -/
def Op.exec (Calculate : σ → T × σ) (EqualToLast : MemoryCalculatedValue T → T → Bool)
    (now : Int) : Op T → LogCalculatedValue T → World σ → List (T × Int) →
      LogCalculatedValue T × World σ × List (T × Int)
  | .get, s, w, acc =>
    ((Get Calculate EqualToLast now s w).2.1, (Get Calculate EqualToLast now s w).2.2,
      acc ++ pushed EqualToLast now
        { s with toMemoryCalculatedValue :=
          (MemoryCalculatedValue.afterBaseGet Calculate now s.toMemoryCalculatedValue w).1 })
  | .lazyGet, s, w, acc => ((LazyGet s).2, w, acc)
  | .set val, s, w, acc =>
    (Set EqualToLast now val s, w,
      acc ++ pushed EqualToLast now
        { s with toMemoryCalculatedValue :=
          MemoryCalculatedValue.afterBaseSet s.toMemoryCalculatedValue })
  | .updateChange, s, w, acc =>
    ((UpdateChange EqualToLast now s).2, w, acc ++ pushed EqualToLast now s)
  | .lastChangeOn, s, w, acc =>
    ((LastChangeOn Calculate EqualToLast now s w).2.1,
      (LastChangeOn Calculate EqualToLast now s w).2.2,
      (acc ++ pushed EqualToLast now
        { s with toMemoryCalculatedValue :=
          (MemoryCalculatedValue.afterBaseGet Calculate now s.toMemoryCalculatedValue w).1 })
        ++ pushed EqualToLast now (Get Calculate EqualToLast now s w).2.1)
  | .reset, s, w, _ => (Reset now s, w, [])

/-- A sequence of timed calls, executed left to right, starting with `acc` as the list of
entries pushed so far. -/
def run (Calculate : σ → T × σ) (EqualToLast : MemoryCalculatedValue T → T → Bool) :
    List (Int × Op T) → LogCalculatedValue T → World σ → List (T × Int) →
      LogCalculatedValue T × World σ × List (T × Int)
  | [], s, w, acc => (s, w, acc)
  | c :: cs, s, w, acc =>
    run Calculate EqualToLast cs (Op.exec Calculate EqualToLast c.1 c.2 s w acc).1
      (Op.exec Calculate EqualToLast c.1 c.2 s w acc).2.1
      (Op.exec Calculate EqualToLast c.1 c.2 s w acc).2.2

/-- A sample trace: twelve `UpdateChange` calls, one per second from 1001 to 1012. -/
def twelveUpdates : List (Int × Op Nat) :=
  [(1001, .updateChange), (1002, .updateChange), (1003, .updateChange), (1004, .updateChange),
    (1005, .updateChange), (1006, .updateChange), (1007, .updateChange), (1008, .updateChange),
    (1009, .updateChange), (1010, .updateChange), (1011, .updateChange), (1012, .updateChange)]

end LogCalculatedValue

/-! ## `BoolCalculatedValue` -/

namespace BoolCalculatedValue

variable {σ : Type}

/-- Override `BoolCalculatedValue::Format`: `return Calculate() ? "true" : "false";`.  The
call of `Calculate` is direct (no guard, no assignment to `value`, no span); the cell is
returned as it was and the context is the one `Calculate` leaves, with the invocation
counted. -/
def Format (Calculate : σ → Bool × σ) (s : CalculatedValue Bool) (w : World σ) :
    String × CalculatedValue Bool × World σ :=
  (if (Calculate w.ctx).1 then "true" else "false", s,
    { ctx := (Calculate w.ctx).2, calls := w.calls + 1 })

/-- A sample `Calculate` for a boolean fact: the flag kept in the context is flipped at every
invocation and the new flag is the result. -/
def flipCalculate (b : Bool) : Bool × Bool :=
  (!b, !b)

end BoolCalculatedValue

/-! ## `ManualSetValue<T>` -/

/-- Fields of `ManualSetValue<T>`: `T value; T defaultValue;`. -/
structure ManualSetValue (T : Type) where
  value : T
  defaultValue : T
deriving DecidableEq, Repr

namespace ManualSetValue

variable {T : Type}

/-- Constructor `ManualSetValue(botAI, defaultValue, name)`:
`value(defaultValue), defaultValue(defaultValue)`. -/
def new (defaultValue : T) : ManualSetValue T :=
  { value := defaultValue, defaultValue := defaultValue }

/-- Member `ManualSetValue::Get`: `return value;` (the cell is passed through unchanged). -/
def Get (s : ManualSetValue T) : T × ManualSetValue T :=
  (s.value, s)

/-- Member `ManualSetValue::LazyGet`: `return value;`. -/
def LazyGet (s : ManualSetValue T) : T × ManualSetValue T :=
  (s.value, s)

/-- Member `ManualSetValue::Set`: `value = val;`. -/
def Set (val : T) (s : ManualSetValue T) : ManualSetValue T :=
  { s with value := val }

/-- Member `ManualSetValue::Reset`: `value = defaultValue;`. -/
def Reset (s : ManualSetValue T) : ManualSetValue T :=
  { s with value := s.defaultValue }

/-- Public member functions of a `ManualSetValue` cell, as issued by a caller. -/
inductive Op (T : Type) where
  | get
  | lazyGet
  | set (val : T)
  | reset
deriving DecidableEq, Repr

/-- One call: the cell afterwards. -/
def Op.exec : Op T → ManualSetValue T → ManualSetValue T
  | .get, s => (Get s).2
  | .lazyGet, s => (LazyGet s).2
  | .set val, s => Set val s
  | .reset, s => Reset s

/-- A sequence of calls, executed left to right. -/
def run : List (Op T) → ManualSetValue T → ManualSetValue T
  | [], s => s
  | c :: cs, s => run cs (Op.exec c s)

/-- Reading of a call history by the words of the specification, independent of the cell:
going back from the latest call, the argument of the first `Set` met, unless a `Reset` (or the
beginning of the history) is met before any `Set`, in which case the default `d`.  The
argument lists the calls latest first. -/
def latestSetSinceReset (d : T) : List (Op T) → T
  | [] => d
  | .set val :: _ => val
  | .reset :: _ => d
  | .get :: earlier => latestSetSinceReset d earlier
  | .lazyGet :: earlier => latestSetSinceReset d earlier

end ManualSetValue

/-! ## Properties of `CalculatedValue::Get` -/

section Theorems

variable {σ T : Type}

theorem CalculatedValue.Get_of_mustRecompute (Calculate : σ → T × σ) (now : Int)
    (s : CalculatedValue T) (w : World σ) (h : CalculatedValue.mustRecompute now s) :
    CalculatedValue.Get Calculate now s w
      = ((Calculate w.ctx).1,
          { checkInterval := s.checkInterval, lastCheckTime := now,
            value := (Calculate w.ctx).1 },
          { ctx := (Calculate w.ctx).2, calls := w.calls + 1 }) := by
  unfold CalculatedValue.Get
  rw [if_pos h]
  rfl

theorem CalculatedValue.Get_of_not_mustRecompute (Calculate : σ → T × σ) (now : Int)
    (s : CalculatedValue T) (w : World σ) (h : ¬ CalculatedValue.mustRecompute now s) :
    CalculatedValue.Get Calculate now s w = (s.value, s, w) := by
  unfold CalculatedValue.Get
  rw [if_neg h]

theorem CalculatedValue.mustRecompute_of_calls (Calculate : σ → T × σ) (now : Int)
    (s : CalculatedValue T) (w : World σ)
    (h : (CalculatedValue.Get Calculate now s w).2.2.calls = w.calls + 1) :
    CalculatedValue.mustRecompute now s := by
  by_contra hn
  rw [CalculatedValue.Get_of_not_mustRecompute Calculate now s w hn] at h
  simp at h

theorem CalculatedValue.Get_lastCheckTime_ne_zero (Calculate : σ → T × σ) (now : Int)
    (s : CalculatedValue T) (w : World σ) (hnow : now ≠ 0) :
    (CalculatedValue.Get Calculate now s w).2.1.lastCheckTime ≠ 0 := by
  by_cases h : CalculatedValue.mustRecompute now s
  · rw [CalculatedValue.Get_of_mustRecompute Calculate now s w h]
    exact hnow
  · rw [CalculatedValue.Get_of_not_mustRecompute Calculate now s w h]
    exact fun h0 => h (Or.inl h0)

theorem CalculatedValue.LazyGet_of_ne_zero (Calculate : σ → T × σ) (now : Int)
    (s : CalculatedValue T) (w : World σ) (h : s.lastCheckTime ≠ 0) :
    CalculatedValue.LazyGet Calculate now s w = (s.value, s, w) := by
  unfold CalculatedValue.LazyGet
  rw [if_neg h]

theorem CalculatedValue.LazyGet_of_eq_zero (Calculate : σ → T × σ) (now : Int)
    (s : CalculatedValue T) (w : World σ) (h : s.lastCheckTime = 0) :
    CalculatedValue.LazyGet Calculate now s w = CalculatedValue.Get Calculate now s w := by
  unfold CalculatedValue.LazyGet
  rw [if_pos h]

theorem CalculatedValue.LazyGet_lastCheckTime_ne_zero (Calculate : σ → T × σ) (now : Int)
    (s : CalculatedValue T) (w : World σ) (hnow : now ≠ 0) :
    (CalculatedValue.LazyGet Calculate now s w).2.1.lastCheckTime ≠ 0 := by
  by_cases h : s.lastCheckTime = 0
  · rw [CalculatedValue.LazyGet_of_eq_zero Calculate now s w h]
    exact CalculatedValue.Get_lastCheckTime_ne_zero Calculate now s w hnow
  · rw [CalculatedValue.LazyGet_of_ne_zero Calculate now s w h]
    exact h

/-- A call other than `Reset`, made at a nonzero clock reading, keeps a computed cell
computed. -/
theorem CalculatedValue.exec_lastCheckTime_ne_zero (Calculate : σ → T × σ) (now : Int)
    (op : CalculatedValue.Op T) (s : CalculatedValue T) (w : World σ) (hnow : now ≠ 0)
    (hop : op ≠ CalculatedValue.Op.reset) (h : s.lastCheckTime ≠ 0) :
    (CalculatedValue.Op.exec Calculate now op s w).1.lastCheckTime ≠ 0 := by
  cases op with
  | get => exact CalculatedValue.Get_lastCheckTime_ne_zero Calculate now s w hnow
  | lazyGet => exact CalculatedValue.LazyGet_lastCheckTime_ne_zero Calculate now s w hnow
  | set val => exact h
  | reset => exact absurd rfl hop

theorem CalculatedValue.run_lastCheckTime_ne_zero (Calculate : σ → T × σ)
    (ops : List (Int × CalculatedValue.Op T)) (s : CalculatedValue T) (w : World σ)
    (hops : ∀ c ∈ ops, c.1 ≠ 0 ∧ c.2 ≠ CalculatedValue.Op.reset) (h : s.lastCheckTime ≠ 0) :
    (CalculatedValue.run Calculate ops s w).1.lastCheckTime ≠ 0 := by
  induction ops generalizing s w with
  | nil => exact h
  | cons c cs ih =>
    have hc := hops c (List.mem_cons_self c cs)
    exact ih _ _ (fun d hd => hops d (List.mem_cons_of_mem c hd))
      (CalculatedValue.exec_lastCheckTime_ne_zero Calculate c.1 c.2 s w hc.1 hc.2 h)

/-- C1: `Get` invokes `Calculate` (exactly once) precisely when `lastCheckTime = 0`, or
`checkInterval < 2`, or `now - lastCheckTime >= checkInterval / 2` with the quotient rounded
down; in that case it stores `now` in `lastCheckTime` and the result of `Calculate` in `value`
and returns that result; otherwise the cell and the context are left as they were and the
cached `value` is returned. -/
theorem c1_get_contract (Calculate : σ → T × σ) (now : Int) (s : CalculatedValue T)
    (w : World σ) :
    ((CalculatedValue.Get Calculate now s w).2.2.calls = w.calls + 1 ↔
        (s.lastCheckTime = 0 ∨ s.checkInterval < 2
          ∨ now - s.lastCheckTime ≥ ((s.checkInterval / 2 : Nat) : Int)))
    ∧ ((CalculatedValue.Get Calculate now s w).2.2.calls = w.calls ↔
        ¬ (s.lastCheckTime = 0 ∨ s.checkInterval < 2
          ∨ now - s.lastCheckTime ≥ ((s.checkInterval / 2 : Nat) : Int)))
    ∧ ((s.lastCheckTime = 0 ∨ s.checkInterval < 2
          ∨ now - s.lastCheckTime ≥ ((s.checkInterval / 2 : Nat) : Int)) →
        (CalculatedValue.Get Calculate now s w).1 = (Calculate w.ctx).1
        ∧ (CalculatedValue.Get Calculate now s w).2.1.lastCheckTime = now
        ∧ (CalculatedValue.Get Calculate now s w).2.1.value = (Calculate w.ctx).1
        ∧ (CalculatedValue.Get Calculate now s w).2.1.checkInterval = s.checkInterval
        ∧ (CalculatedValue.Get Calculate now s w).2.2.ctx = (Calculate w.ctx).2)
    ∧ (¬ (s.lastCheckTime = 0 ∨ s.checkInterval < 2
          ∨ now - s.lastCheckTime ≥ ((s.checkInterval / 2 : Nat) : Int)) →
        CalculatedValue.Get Calculate now s w = (s.value, s, w)) := by
  by_cases h : CalculatedValue.mustRecompute now s
  · rw [CalculatedValue.Get_of_mustRecompute Calculate now s w h]
    refine ⟨⟨fun _ => h, fun _ => rfl⟩, ⟨fun hc => ?_, fun hn => absurd h hn⟩,
      fun _ => ⟨rfl, rfl, rfl, rfl, rfl⟩, fun hn => absurd h hn⟩
    simp at hc
  · rw [CalculatedValue.Get_of_not_mustRecompute Calculate now s w h]
    refine ⟨⟨fun hc => ?_, fun hp => absurd hp h⟩, ⟨fun _ => h, fun _ => rfl⟩,
      fun hp => absurd hp h, fun _ => rfl⟩
    simp at hc

/-- Both branches of C1 on concrete cells with `checkInterval = 10`: 4 seconds after the last
check the cached 7 is returned and nothing changes, 5 seconds after it `Calculate` runs. -/
theorem c1_get_contract_witness :
    CalculatedValue.Get counterCalculate 1004
        { checkInterval := 10, lastCheckTime := 1000, value := 7 } { ctx := 0, calls := 0 }
      = (7, { checkInterval := 10, lastCheckTime := 1000, value := 7 }, { ctx := 0, calls := 0 })
    ∧ (CalculatedValue.Get counterCalculate 1005
        { checkInterval := 10, lastCheckTime := 1000, value := 7 }
        { ctx := 0, calls := 0 }).2.1.lastCheckTime = 1005 :=
  ⟨(c1_get_contract counterCalculate 1004
      { checkInterval := 10, lastCheckTime := 1000, value := 7 }
      { ctx := 0, calls := 0 }).2.2.2 (by decide),
   ((c1_get_contract counterCalculate 1005
      { checkInterval := 10, lastCheckTime := 1000, value := 7 }
      { ctx := 0, calls := 0 }).2.2.1 (by decide)).2.1⟩

theorem CalculatedValue.Get_of_interval_lt_two (Calculate : σ → T × σ) (now : Int)
    (s : CalculatedValue T) (w : World σ) (h : s.checkInterval < 2) :
    CalculatedValue.Get Calculate now s w
      = ((Calculate w.ctx).1,
          { checkInterval := s.checkInterval, lastCheckTime := now,
            value := (Calculate w.ctx).1 },
          { ctx := (Calculate w.ctx).2, calls := w.calls + 1 }) :=
  CalculatedValue.Get_of_mustRecompute Calculate now s w (Or.inr (Or.inl h))

/-- Inside the window nothing moves: a cell last checked at a nonzero `t0`, with
`checkInterval >= 2`, answers every `Get` made less than `checkInterval / 2` after `t0` from the
cache, whatever the number of such calls. -/
theorem CalculatedValue.runGets_within_window (Calculate : σ → T × σ) (ts : List Int)
    (s : CalculatedValue T) (w : World σ) (hc : 2 ≤ s.checkInterval)
    (h0 : s.lastCheckTime ≠ 0)
    (hts : ∀ u ∈ ts, u - s.lastCheckTime < ((s.checkInterval / 2 : Nat) : Int)) :
    CalculatedValue.runGets Calculate ts s w = (List.replicate ts.length s.value, s, w) := by
  induction ts with
  | nil => rfl
  | cons u us ih =>
    have hu : ¬ CalculatedValue.mustRecompute u s := by
      have := hts u (List.mem_cons_self u us)
      unfold CalculatedValue.mustRecompute
      omega
    have ih2 := ih (fun v hv => hts v (List.mem_cons_of_mem u hv))
    simp only [CalculatedValue.runGets,
      CalculatedValue.Get_of_not_mustRecompute Calculate u s w hu, ih2, List.length_cons,
      List.replicate_succ]

/-- C2: for a cell with `checkInterval = c >= 2`, after a `Get` that recomputed at a nonzero
time `t0`, every later `Get` at a time `t` with `t - t0 < c / 2` returns the value of that
recompute without invoking `Calculate` and without moving the window (any number of them), and
the first `Get` at a time `t` with `t - t0 >= c / 2` invokes `Calculate` again and returns its
new result. -/
theorem c2_recompute_window (Calculate : σ → T × σ) (s : CalculatedValue T) (w : World σ)
    (t0 : Int) (ts : List Int) (t : Int)
    (hc : 2 ≤ s.checkInterval) (ht0 : t0 ≠ 0)
    (hrec : (CalculatedValue.Get Calculate t0 s w).2.2.calls = w.calls + 1)
    (hts : ∀ u ∈ ts, u - t0 < ((s.checkInterval / 2 : Nat) : Int))
    (ht : t - t0 ≥ ((s.checkInterval / 2 : Nat) : Int)) :
    CalculatedValue.runGets Calculate ts (CalculatedValue.Get Calculate t0 s w).2.1
        (CalculatedValue.Get Calculate t0 s w).2.2
      = (List.replicate ts.length (CalculatedValue.Get Calculate t0 s w).1,
          (CalculatedValue.Get Calculate t0 s w).2.1,
          (CalculatedValue.Get Calculate t0 s w).2.2)
    ∧ (CalculatedValue.Get Calculate t
          (CalculatedValue.runGets Calculate ts (CalculatedValue.Get Calculate t0 s w).2.1
            (CalculatedValue.Get Calculate t0 s w).2.2).2.1
          (CalculatedValue.runGets Calculate ts (CalculatedValue.Get Calculate t0 s w).2.1
            (CalculatedValue.Get Calculate t0 s w).2.2).2.2).2.2.calls
        = (CalculatedValue.Get Calculate t0 s w).2.2.calls + 1
    ∧ (CalculatedValue.Get Calculate t
          (CalculatedValue.runGets Calculate ts (CalculatedValue.Get Calculate t0 s w).2.1
            (CalculatedValue.Get Calculate t0 s w).2.2).2.1
          (CalculatedValue.runGets Calculate ts (CalculatedValue.Get Calculate t0 s w).2.1
            (CalculatedValue.Get Calculate t0 s w).2.2).2.2).1
        = (Calculate (CalculatedValue.Get Calculate t0 s w).2.2.ctx).1 := by
  have hm : CalculatedValue.mustRecompute t0 s :=
    CalculatedValue.mustRecompute_of_calls Calculate t0 s w hrec
  have hg := CalculatedValue.Get_of_mustRecompute Calculate t0 s w hm
  have hwin := CalculatedValue.runGets_within_window Calculate ts
    (CalculatedValue.Get Calculate t0 s w).2.1 (CalculatedValue.Get Calculate t0 s w).2.2
    (by rw [hg]; exact hc) (by rw [hg]; exact ht0) (by rw [hg]; exact hts)
  have hv : (CalculatedValue.Get Calculate t0 s w).2.1.value
      = (CalculatedValue.Get Calculate t0 s w).1 := by rw [hg]
  rw [hv] at hwin
  have hout : CalculatedValue.mustRecompute t (CalculatedValue.Get Calculate t0 s w).2.1 := by
    rw [hg]; exact Or.inr (Or.inr ht)
  refine ⟨hwin, ?_, ?_⟩
  · rw [hwin, CalculatedValue.Get_of_mustRecompute Calculate t _ _ hout]
  · rw [hwin, CalculatedValue.Get_of_mustRecompute Calculate t _ _ hout]

/-- Scenario B through C2 (`checkInterval = 20`, `Calculate` yielding 100 then 200, calls at
`t0 = 1000`, `t0 + 5`, `t0 + 12` return 100, 100, 200), and the cadence of P1
(`checkInterval = 10`: calls under 5 seconds after the recompute are served from the cache, the
call at 5 seconds recomputes). -/
theorem c2_recompute_window_witness :
    (CalculatedValue.runGets hundredsCalculate [1005]
        (CalculatedValue.Get hundredsCalculate 1000 (CalculatedValue.new 20 0)
          { ctx := 0, calls := 0 }).2.1
        (CalculatedValue.Get hundredsCalculate 1000 (CalculatedValue.new 20 0)
          { ctx := 0, calls := 0 }).2.2).1 = [100]
    ∧ (CalculatedValue.runGets hundredsCalculate [1000, 1005, 1012] (CalculatedValue.new 20 0)
        { ctx := 0, calls := 0 }).1 = [100, 100, 200]
    ∧ (CalculatedValue.runGets hundredsCalculate [1000, 1005, 1012] (CalculatedValue.new 20 0)
        { ctx := 0, calls := 0 }).2.2.calls = 2
    ∧ (CalculatedValue.runGets counterCalculate [1000, 1002, 1004, 1005, 1009]
        (CalculatedValue.new 10 0) { ctx := 0, calls := 0 }).1 = [1, 1, 1, 2, 2] :=
  ⟨congrArg Prod.fst
      (c2_recompute_window hundredsCalculate (CalculatedValue.new 20 0) { ctx := 0, calls := 0 }
        1000 [1005] 1012 (by decide) (by decide) (by decide) (by decide) (by decide)).1,
    by decide, by decide, by decide⟩

/-- C3: with `checkInterval` 0 or 1 every `Get` invokes `Calculate` exactly once and returns
its result, whatever the cached state and the clock; with `Calculate` an incrementing counter
starting at 1, three consecutive calls return 1, 2, 3. -/
theorem c3_interval_below_two (Calculate : σ → T × σ) (now : Int) (s : CalculatedValue T)
    (w : World σ) (hc : s.checkInterval = 0 ∨ s.checkInterval = 1) :
    CalculatedValue.Get Calculate now s w
        = ((Calculate w.ctx).1,
            { checkInterval := s.checkInterval, lastCheckTime := now,
              value := (Calculate w.ctx).1 },
            { ctx := (Calculate w.ctx).2, calls := w.calls + 1 })
    ∧ ∀ (c : CalculatedValue Nat) (t1 t2 t3 : Int) (k : Nat),
        c.checkInterval = s.checkInterval →
        (CalculatedValue.runGets counterCalculate [t1, t2, t3] c { ctx := 0, calls := k }).1
            = [1, 2, 3]
        ∧ (CalculatedValue.runGets counterCalculate [t1, t2, t3] c
            { ctx := 0, calls := k }).2.2.calls = k + 3 := by
  have hlt : s.checkInterval < 2 := by omega
  refine ⟨CalculatedValue.Get_of_interval_lt_two Calculate now s w hlt, ?_⟩
  intro c t1 t2 t3 k hck
  have hc2 : c.checkInterval < 2 := by omega
  simp only [CalculatedValue.runGets, CalculatedValue.Get_of_interval_lt_two, hc2,
    counterCalculate]
  exact ⟨trivial, trivial⟩

/-- Scenario A through C3: `checkInterval = 1`, three calls within the same second return
1, 2, 3 and invoke `Calculate` three times. -/
theorem c3_interval_below_two_witness :
    (CalculatedValue.new 1 0 : CalculatedValue Nat).checkInterval = 1
    ∧ (CalculatedValue.runGets counterCalculate [1000, 1000, 1000] (CalculatedValue.new 1 0)
        { ctx := 0, calls := 0 }).1 = [1, 2, 3]
    ∧ (CalculatedValue.runGets counterCalculate [1000, 1000, 1000] (CalculatedValue.new 1 0)
        { ctx := 0, calls := 0 }).2.2.calls = 0 + 3 :=
  ⟨by decide,
    (c3_interval_below_two counterCalculate 1000 (CalculatedValue.new 1 0)
      { ctx := 0, calls := 0 } (Or.inr (by decide))).2
      (CalculatedValue.new 1 0) 1000 1000 1000 0 rfl⟩

/-! ## `LazyGet` -/

/-- C4: `LazyGet` is `Get` when `lastCheckTime = 0`, and otherwise returns the cached value
with the cell and the context untouched (no `Calculate`).  Hence, from any state, once a `Get`
or `LazyGet` has run and no `Reset` follows it (clock readings nonzero), a `LazyGet` at any
later clock reading, after any further `Get`, `LazyGet` and `Set` calls and for any
`checkInterval`, returns the cached value and invokes nothing. -/
theorem c4_lazyGet (Calculate : σ → T × σ) (now : Int) (s : CalculatedValue T) (w : World σ) :
    (s.lastCheckTime = 0 →
        CalculatedValue.LazyGet Calculate now s w = CalculatedValue.Get Calculate now s w)
    ∧ (s.lastCheckTime ≠ 0 → CalculatedValue.LazyGet Calculate now s w = (s.value, s, w))
    ∧ ∀ (t0 : Int) (first : CalculatedValue.Op T) (ops : List (Int × CalculatedValue.Op T)),
        (first = CalculatedValue.Op.get ∨ first = CalculatedValue.Op.lazyGet) → t0 ≠ 0 →
        (∀ c ∈ ops, c.1 ≠ 0 ∧ c.2 ≠ CalculatedValue.Op.reset) →
        CalculatedValue.LazyGet Calculate now
            (CalculatedValue.run Calculate ((t0, first) :: ops) s w).1
            (CalculatedValue.run Calculate ((t0, first) :: ops) s w).2
          = ((CalculatedValue.run Calculate ((t0, first) :: ops) s w).1.value,
              (CalculatedValue.run Calculate ((t0, first) :: ops) s w).1,
              (CalculatedValue.run Calculate ((t0, first) :: ops) s w).2) := by
  refine ⟨CalculatedValue.LazyGet_of_eq_zero Calculate now s w,
    CalculatedValue.LazyGet_of_ne_zero Calculate now s w, ?_⟩
  intro t0 first ops hfirst ht0 hops
  apply CalculatedValue.LazyGet_of_ne_zero
  show (CalculatedValue.run Calculate ops
      (CalculatedValue.Op.exec Calculate t0 first s w).1
      (CalculatedValue.Op.exec Calculate t0 first s w).2).1.lastCheckTime ≠ 0
  apply CalculatedValue.run_lastCheckTime_ne_zero Calculate ops _ _ hops
  rcases hfirst with h | h
  · rw [h]
    exact CalculatedValue.Get_lastCheckTime_ne_zero Calculate t0 s w ht0
  · rw [h]
    exact CalculatedValue.LazyGet_lastCheckTime_ne_zero Calculate t0 s w ht0

/-- C4 on a fresh cell with `checkInterval = 1`: the first `LazyGet` computes, and after a
`Get`, a `Set` and another `LazyGet`, a `LazyGet` an hour later still answers from the cache
with the invocation count unchanged. -/
theorem c4_lazyGet_witness :
    CalculatedValue.LazyGet counterCalculate 5000
        (CalculatedValue.run counterCalculate
          [(1000, CalculatedValue.Op.lazyGet), (1001, CalculatedValue.Op.get),
            (1002, CalculatedValue.Op.set 9), (1003, CalculatedValue.Op.lazyGet)]
          (CalculatedValue.new 1 0) { ctx := 0, calls := 0 }).1
        (CalculatedValue.run counterCalculate
          [(1000, CalculatedValue.Op.lazyGet), (1001, CalculatedValue.Op.get),
            (1002, CalculatedValue.Op.set 9), (1003, CalculatedValue.Op.lazyGet)]
          (CalculatedValue.new 1 0) { ctx := 0, calls := 0 }).2
      = (9, { checkInterval := 1, lastCheckTime := 1001, value := 9 },
          { ctx := 2, calls := 2 }) :=
  ((c4_lazyGet counterCalculate 5000 (CalculatedValue.new 1 0)
      { ctx := 0, calls := 0 }).2.2 1000 CalculatedValue.Op.lazyGet
      [(1001, CalculatedValue.Op.get), (1002, CalculatedValue.Op.set 9),
        (1003, CalculatedValue.Op.lazyGet)]
      (Or.inr rfl) (by decide) (by decide)).trans (by decide)

/-! ## `SingleCalculatedValue` -/

theorem SingleCalculatedValue.Get_of_eq_zero (Calculate : σ → T × σ) (now : Int)
    (s : CalculatedValue T) (w : World σ) (h : s.lastCheckTime = 0) :
    SingleCalculatedValue.Get Calculate now s w
      = ((Calculate w.ctx).1,
          { checkInterval := s.checkInterval, lastCheckTime := now,
            value := (Calculate w.ctx).1 },
          { ctx := (Calculate w.ctx).2, calls := w.calls + 1 }) := by
  unfold SingleCalculatedValue.Get
  rw [if_pos h]
  rfl

theorem SingleCalculatedValue.Get_of_ne_zero (Calculate : σ → T × σ) (now : Int)
    (s : CalculatedValue T) (w : World σ) (h : s.lastCheckTime ≠ 0) :
    SingleCalculatedValue.Get Calculate now s w = (s.value, s, w) := by
  unfold SingleCalculatedValue.Get
  rw [if_neg h]

/-- Once computed, a once-only cell answers every `Get` from the cache. -/
theorem SingleCalculatedValue.runGets_cached (Calculate : σ → T × σ) (ts : List Int)
    (s : CalculatedValue T) (w : World σ) (h : s.lastCheckTime ≠ 0) :
    SingleCalculatedValue.runGets Calculate ts s w
      = (List.replicate ts.length s.value, s, w) := by
  induction ts with
  | nil => rfl
  | cons u us ih =>
    simp only [SingleCalculatedValue.runGets,
      SingleCalculatedValue.Get_of_ne_zero Calculate u s w h, ih, List.length_cons,
      List.replicate_succ]

/-- From a never-computed (or reset) cell, a run of `Get` calls whose first clock reading is
nonzero invokes `Calculate` once, in the first call, and returns its result every time. -/
theorem SingleCalculatedValue.runGets_fresh (Calculate : σ → T × σ) (t : Int) (ts : List Int)
    (s : CalculatedValue T) (w : World σ) (h : s.lastCheckTime = 0) (ht : t ≠ 0) :
    SingleCalculatedValue.runGets Calculate (t :: ts) s w
      = (List.replicate (ts.length + 1) (Calculate w.ctx).1,
          { checkInterval := s.checkInterval, lastCheckTime := t,
            value := (Calculate w.ctx).1 },
          { ctx := (Calculate w.ctx).2, calls := w.calls + 1 }) := by
  simp only [SingleCalculatedValue.runGets,
    SingleCalculatedValue.Get_of_eq_zero Calculate t s w h]
  rw [SingleCalculatedValue.runGets_cached Calculate ts _ _ ht]
  rfl

/-- C5: on a freshly constructed once-only cell, any run of `Get` calls (first clock reading
nonzero, the others arbitrary) invokes `Calculate` exactly once, in the first call, and every
call returns that result; after a `Reset` the next `Get` invokes `Calculate` exactly once more
and the later calls return the new cached result. -/
theorem c5_once_only (Calculate : σ → T × σ) (init : T) (w : World σ)
    (t : Int) (ts : List Int) (u : Int) (us : List Int) (ht : t ≠ 0) (hu : u ≠ 0) :
    (SingleCalculatedValue.Get Calculate t (SingleCalculatedValue.new init) w).2.2.calls
        = w.calls + 1
    ∧ SingleCalculatedValue.runGets Calculate (t :: ts) (SingleCalculatedValue.new init) w
        = (List.replicate (ts.length + 1) (Calculate w.ctx).1,
            { checkInterval := 1, lastCheckTime := t, value := (Calculate w.ctx).1 },
            { ctx := (Calculate w.ctx).2, calls := w.calls + 1 })
    ∧ (SingleCalculatedValue.Get Calculate u
          (CalculatedValue.Reset (SingleCalculatedValue.runGets Calculate (t :: ts)
            (SingleCalculatedValue.new init) w).2.1)
          (SingleCalculatedValue.runGets Calculate (t :: ts)
            (SingleCalculatedValue.new init) w).2.2).2.2.calls = w.calls + 2
    ∧ SingleCalculatedValue.runGets Calculate (u :: us)
          (CalculatedValue.Reset (SingleCalculatedValue.runGets Calculate (t :: ts)
            (SingleCalculatedValue.new init) w).2.1)
          (SingleCalculatedValue.runGets Calculate (t :: ts)
            (SingleCalculatedValue.new init) w).2.2
        = (List.replicate (us.length + 1) (Calculate (Calculate w.ctx).2).1,
            { checkInterval := 1, lastCheckTime := u,
              value := (Calculate (Calculate w.ctx).2).1 },
            { ctx := (Calculate (Calculate w.ctx).2).2, calls := w.calls + 2 }) := by
  have h1 := SingleCalculatedValue.runGets_fresh Calculate t ts
    (SingleCalculatedValue.new init) w rfl ht
  refine ⟨?_, h1, ?_, ?_⟩
  · rw [SingleCalculatedValue.Get_of_eq_zero Calculate t _ w rfl]
  · rw [h1, SingleCalculatedValue.Get_of_eq_zero Calculate u _ _ rfl]
  · rw [h1, SingleCalculatedValue.runGets_fresh Calculate u us _ _ rfl hu]
    rfl

/-- C5 with the counter as `Calculate`: four calls spread over a day all return 1 with one
invocation; after `Reset`, the next three calls all return 2 with one more invocation. -/
theorem c5_once_only_witness :
    (SingleCalculatedValue.runGets counterCalculate [1000, 1001, 50000, 87400]
        (SingleCalculatedValue.new 0) { ctx := 0, calls := 0 }).1 = [1, 1, 1, 1]
    ∧ (SingleCalculatedValue.runGets counterCalculate [90000, 90001, 99999]
          (CalculatedValue.Reset (SingleCalculatedValue.runGets counterCalculate
            [1000, 1001, 50000, 87400] (SingleCalculatedValue.new 0)
            { ctx := 0, calls := 0 }).2.1)
          (SingleCalculatedValue.runGets counterCalculate
            [1000, 1001, 50000, 87400] (SingleCalculatedValue.new 0)
            { ctx := 0, calls := 0 }).2.2)
        = ([2, 2, 2], { checkInterval := 1, lastCheckTime := 90000, value := 2 },
            { ctx := 2, calls := 2 }) :=
  ⟨congrArg Prod.fst
      (c5_once_only counterCalculate 0 { ctx := 0, calls := 0 } 1000 [1001, 50000, 87400]
        90000 [90001, 99999] (by decide) (by decide)).2.1,
    (c5_once_only counterCalculate 0 { ctx := 0, calls := 0 } 1000 [1001, 50000, 87400]
        90000 [90001, 99999] (by decide) (by decide)).2.2.2⟩

/-! ## `MemoryCalculatedValue::UpdateChange` and `Set` -/

theorem MemoryCalculatedValue.UpdateChange_of_skip
    (EqualToLast : MemoryCalculatedValue T → T → Bool) (now : Int)
    (s : MemoryCalculatedValue T)
    (h : now - s.lastChangeTime < (s.minChangeInterval : Int) ∨ EqualToLast s s.value = true) :
    MemoryCalculatedValue.UpdateChange EqualToLast now s = (false, s) := by
  have hc : MemoryCalculatedValue.CanCheckChange EqualToLast now s = true := by
    unfold MemoryCalculatedValue.CanCheckChange
    rcases h with h | h
    · simp [h]
    · simp [h]
  unfold MemoryCalculatedValue.UpdateChange
  rw [if_pos hc]

theorem MemoryCalculatedValue.UpdateChange_of_not_skip
    (EqualToLast : MemoryCalculatedValue T → T → Bool) (now : Int)
    (s : MemoryCalculatedValue T)
    (h : ¬ (now - s.lastChangeTime < (s.minChangeInterval : Int)
          ∨ EqualToLast s s.value = true)) :
    MemoryCalculatedValue.UpdateChange EqualToLast now s
      = (true, { toCalculatedValue := s.toCalculatedValue, lastValue := s.value,
                 minChangeInterval := s.minChangeInterval, lastChangeTime := now }) := by
  have hc : ¬ MemoryCalculatedValue.CanCheckChange EqualToLast now s = true := by
    unfold MemoryCalculatedValue.CanCheckChange
    simp only [Bool.or_eq_true, decide_eq_true_eq]
    exact h
  unfold MemoryCalculatedValue.UpdateChange
  rw [if_neg hc]

/-- C6: `UpdateChange` returns `false` and changes nothing when
`now - lastChangeTime < minChangeInterval` or `EqualToLast(value)` holds; otherwise it returns
`true`, stores `now` in `lastChangeTime` and `value` in `lastValue`, and leaves `value`,
`lastCheckTime` (and the two intervals) unchanged. -/
theorem c6_updateChange (EqualToLast : MemoryCalculatedValue T → T → Bool) (now : Int)
    (s : MemoryCalculatedValue T) :
    ((now - s.lastChangeTime < (s.minChangeInterval : Int) ∨ EqualToLast s s.value = true) →
        MemoryCalculatedValue.UpdateChange EqualToLast now s = (false, s))
    ∧ (¬ (now - s.lastChangeTime < (s.minChangeInterval : Int)
            ∨ EqualToLast s s.value = true) →
        (MemoryCalculatedValue.UpdateChange EqualToLast now s).1 = true
        ∧ (MemoryCalculatedValue.UpdateChange EqualToLast now s).2.lastChangeTime = now
        ∧ (MemoryCalculatedValue.UpdateChange EqualToLast now s).2.lastValue = s.value
        ∧ (MemoryCalculatedValue.UpdateChange EqualToLast now s).2.value = s.value
        ∧ (MemoryCalculatedValue.UpdateChange EqualToLast now s).2.lastCheckTime
            = s.lastCheckTime
        ∧ (MemoryCalculatedValue.UpdateChange EqualToLast now s).2.checkInterval
            = s.checkInterval
        ∧ (MemoryCalculatedValue.UpdateChange EqualToLast now s).2.minChangeInterval
            = s.minChangeInterval) := by
  refine ⟨MemoryCalculatedValue.UpdateChange_of_skip EqualToLast now s, fun h => ?_⟩
  rw [MemoryCalculatedValue.UpdateChange_of_not_skip EqualToLast now s h]
  exact ⟨rfl, rfl, rfl, rfl, rfl, rfl, rfl⟩

/-- C6 on a cell with `minChangeInterval = 5` last changed at 1000 whose value 7 differs from
the recorded 3: at 1004 nothing happens, at 1005 the change is recognized. -/
theorem c6_updateChange_witness :
    MemoryCalculatedValue.UpdateChange sameAsLast 1004
        { checkInterval := 1, lastCheckTime := 1003, value := 7, lastValue := 3,
          minChangeInterval := 5, lastChangeTime := 1000 }
      = (false, { checkInterval := 1, lastCheckTime := 1003, value := 7, lastValue := 3,
                  minChangeInterval := 5, lastChangeTime := 1000 })
    ∧ (MemoryCalculatedValue.UpdateChange sameAsLast 1005
        { checkInterval := 1, lastCheckTime := 1003, value := 7, lastValue := 3,
          minChangeInterval := 5, lastChangeTime := 1000 }).2.lastChangeTime = 1005 :=
  ⟨(c6_updateChange sameAsLast 1004
      { checkInterval := 1, lastCheckTime := 1003, value := 7, lastValue := 3,
        minChangeInterval := 5, lastChangeTime := 1000 }).1 (by decide),
   ((c6_updateChange sameAsLast 1005
      { checkInterval := 1, lastCheckTime := 1003, value := 7, lastValue := 3,
        minChangeInterval := 5, lastChangeTime := 1000 }).2 (by decide)).2.1⟩

theorem MemoryCalculatedValue.afterBaseSet_eq (s : MemoryCalculatedValue T) :
    MemoryCalculatedValue.afterBaseSet s = s := rfl

/-- `UpdateChange` never touches the base-class fields nor `minChangeInterval`. -/
theorem MemoryCalculatedValue.UpdateChange_frame
    (EqualToLast : MemoryCalculatedValue T → T → Bool) (now : Int)
    (s : MemoryCalculatedValue T) :
    (MemoryCalculatedValue.UpdateChange EqualToLast now s).2.toCalculatedValue
        = s.toCalculatedValue
    ∧ (MemoryCalculatedValue.UpdateChange EqualToLast now s).2.minChangeInterval
        = s.minChangeInterval := by
  unfold MemoryCalculatedValue.UpdateChange
  split
  · exact ⟨rfl, rfl⟩
  · exact ⟨rfl, rfl⟩

/-- C8: `Set(v)` does not depend on `v`: any two arguments give the same cell, the cached
`value` (with `lastCheckTime` and both intervals) is what it was before the call, and the cell
after `Set` is exactly the cell `UpdateChange` leaves, so only `lastValue` and
`lastChangeTime` can differ from before. -/
theorem c8_set_discards_argument (EqualToLast : MemoryCalculatedValue T → T → Bool)
    (now : Int) (v1 v2 : T) (s : MemoryCalculatedValue T) :
    MemoryCalculatedValue.Set EqualToLast now v1 s
        = MemoryCalculatedValue.Set EqualToLast now v2 s
    ∧ (MemoryCalculatedValue.Set EqualToLast now v1 s).value = s.value
    ∧ MemoryCalculatedValue.Set EqualToLast now v1 s
        = (MemoryCalculatedValue.UpdateChange EqualToLast now s).2
    ∧ (MemoryCalculatedValue.Set EqualToLast now v1 s).toCalculatedValue
        = s.toCalculatedValue
    ∧ (MemoryCalculatedValue.Set EqualToLast now v1 s).minChangeInterval
        = s.minChangeInterval := by
  have hf := MemoryCalculatedValue.UpdateChange_frame EqualToLast now s
  have hs : ∀ v : T, MemoryCalculatedValue.Set EqualToLast now v s
      = (MemoryCalculatedValue.UpdateChange EqualToLast now s).2 := fun _ => rfl
  refine ⟨(hs v1).trans (hs v2).symm, ?_, hs v1, ?_, ?_⟩
  · rw [hs v1]
    exact congrArg CalculatedValue.value hf.1
  · rw [hs v1]
    exact hf.1
  · rw [hs v1]
    exact hf.2

/-! ## `LogCalculatedValue::UpdateChange` -/

theorem LogCalculatedValue.UpdateChange_of_base_true
    (EqualToLast : MemoryCalculatedValue T → T → Bool) (now : Int) (s : LogCalculatedValue T)
    (h : (MemoryCalculatedValue.UpdateChange EqualToLast now s.toMemoryCalculatedValue).1
      = true) :
    LogCalculatedValue.UpdateChange EqualToLast now s
      = (false,
          { toMemoryCalculatedValue :=
              (MemoryCalculatedValue.UpdateChange EqualToLast now s.toMemoryCalculatedValue).2
            valueLog := s.valueLog
            logLength := s.logLength }) := by
  unfold LogCalculatedValue.UpdateChange
  simp only [h, if_true]

theorem LogCalculatedValue.UpdateChange_of_base_false
    (EqualToLast : MemoryCalculatedValue T → T → Bool) (now : Int) (s : LogCalculatedValue T)
    (h : (MemoryCalculatedValue.UpdateChange EqualToLast now s.toMemoryCalculatedValue).1
      = false) :
    LogCalculatedValue.UpdateChange EqualToLast now s
      = (true,
          { toMemoryCalculatedValue :=
              (MemoryCalculatedValue.UpdateChange EqualToLast now s.toMemoryCalculatedValue).2
            valueLog :=
              if s.logLength < (s.valueLog ++ [(s.value, now)]).length
              then (s.valueLog ++ [(s.value, now)]).drop 1
              else s.valueLog ++ [(s.value, now)]
            logLength := s.logLength }) := by
  have hf := MemoryCalculatedValue.UpdateChange_frame EqualToLast now s.toMemoryCalculatedValue
  have hv : (MemoryCalculatedValue.UpdateChange EqualToLast now
      s.toMemoryCalculatedValue).2.value = s.value := congrArg CalculatedValue.value hf.1
  unfold LogCalculatedValue.UpdateChange
  simp only [h, Bool.false_eq_true, if_false, hv, gt_iff_lt, List.drop_one]
  split
  · rfl
  · rfl

/-- C9: the override returns the negation of the base `UpdateChange` result, on the cell the
base call leaves.  When the base call recognizes a change the result is `false` and the log is
unchanged; when it does not, exactly `(value, now)` is appended at the end of the log, the
oldest entry is dropped if the log then exceeds `logLength`, and the result is `true`. -/
theorem c9_log_updateChange (EqualToLast : MemoryCalculatedValue T → T → Bool) (now : Int)
    (s : LogCalculatedValue T) :
    (LogCalculatedValue.UpdateChange EqualToLast now s).1
        = !(MemoryCalculatedValue.UpdateChange EqualToLast now s.toMemoryCalculatedValue).1
    ∧ (LogCalculatedValue.UpdateChange EqualToLast now s).2.toMemoryCalculatedValue
        = (MemoryCalculatedValue.UpdateChange EqualToLast now s.toMemoryCalculatedValue).2
    ∧ (LogCalculatedValue.UpdateChange EqualToLast now s).2.logLength = s.logLength
    ∧ ((MemoryCalculatedValue.UpdateChange EqualToLast now s.toMemoryCalculatedValue).1 = true →
        (LogCalculatedValue.UpdateChange EqualToLast now s).1 = false
        ∧ (LogCalculatedValue.UpdateChange EqualToLast now s).2.valueLog = s.valueLog)
    ∧ ((MemoryCalculatedValue.UpdateChange EqualToLast now s.toMemoryCalculatedValue).1 = false →
        (LogCalculatedValue.UpdateChange EqualToLast now s).1 = true
        ∧ (LogCalculatedValue.UpdateChange EqualToLast now s).2.valueLog
            = if s.logLength < (s.valueLog ++ [(s.value, now)]).length
              then (s.valueLog ++ [(s.value, now)]).drop 1
              else s.valueLog ++ [(s.value, now)]) := by
  cases hb : (MemoryCalculatedValue.UpdateChange EqualToLast now s.toMemoryCalculatedValue).1
  · rw [LogCalculatedValue.UpdateChange_of_base_false EqualToLast now s hb]
    simp
  · rw [LogCalculatedValue.UpdateChange_of_base_true EqualToLast now s hb]
    simp

/-- C9 with `logLength = 2` and a full log: when the value equals the recorded one the base
call reports no change, `(7, 1005)` is appended and the oldest entry leaves; when the value
differs the base call recognizes the change and the log stays as it was. -/
theorem c9_log_updateChange_witness :
    LogCalculatedValue.UpdateChange sameAsLast 1005
        { checkInterval := 1, lastCheckTime := 1003, value := 7, lastValue := 7,
          minChangeInterval := 0, lastChangeTime := 1000,
          valueLog := [(1, 1001), (2, 1002)], logLength := 2 }
      = (true,
          { checkInterval := 1, lastCheckTime := 1003, value := 7, lastValue := 7,
            minChangeInterval := 0, lastChangeTime := 1000,
            valueLog := [(2, 1002), (7, 1005)], logLength := 2 })
    ∧ ((LogCalculatedValue.UpdateChange sameAsLast 1005
        { checkInterval := 1, lastCheckTime := 1003, value := 7, lastValue := 3,
          minChangeInterval := 0, lastChangeTime := 1000,
          valueLog := [(1, 1001), (2, 1002)], logLength := 2 }).1 = false
      ∧ (LogCalculatedValue.UpdateChange sameAsLast 1005
        { checkInterval := 1, lastCheckTime := 1003, value := 7, lastValue := 3,
          minChangeInterval := 0, lastChangeTime := 1000,
          valueLog := [(1, 1001), (2, 1002)], logLength := 2 }).2.valueLog
          = [(1, 1001), (2, 1002)]) :=
  ⟨by decide,
    (c9_log_updateChange sameAsLast 1005
      { checkInterval := 1, lastCheckTime := 1003, value := 7, lastValue := 3,
        minChangeInterval := 0, lastChangeTime := 1000,
        valueLog := [(1, 1001), (2, 1002)], logLength := 2 }).2.2.2.1 (by decide)⟩

/-! ## Change hysteresis along a trace -/

theorem MemoryCalculatedValue.mem_noteChange (b : Bool) (now : Int)
    (e : MemoryCalculatedValue.ChangeEvent) :
    e ∈ MemoryCalculatedValue.noteChange b now
      ↔ b = true ∧ e = MemoryCalculatedValue.ChangeEvent.recognized now := by
  cases b <;> simp [MemoryCalculatedValue.noteChange]

/-- What one execution of `UpdateChange` does to the hysteresis state. -/
theorem MemoryCalculatedValue.UpdateChange_spacing
    (EqualToLast : MemoryCalculatedValue T → T → Bool) (now : Int)
    (s : MemoryCalculatedValue T) :
    (MemoryCalculatedValue.UpdateChange EqualToLast now s).2.minChangeInterval
        = s.minChangeInterval
    ∧ ((MemoryCalculatedValue.UpdateChange EqualToLast now s).1 = true →
        (MemoryCalculatedValue.UpdateChange EqualToLast now s).2.lastChangeTime = now
        ∧ (s.minChangeInterval : Int) ≤ now - s.lastChangeTime)
    ∧ ((MemoryCalculatedValue.UpdateChange EqualToLast now s).1 = false →
        (MemoryCalculatedValue.UpdateChange EqualToLast now s).2 = s) := by
  by_cases h : now - s.lastChangeTime < (s.minChangeInterval : Int)
      ∨ EqualToLast s s.value = true
  · rw [MemoryCalculatedValue.UpdateChange_of_skip EqualToLast now s h]
    simp
  · rw [MemoryCalculatedValue.UpdateChange_of_not_skip EqualToLast now s h]
    have : (s.minChangeInterval : Int) ≤ now - s.lastChangeTime := by
      have := fun hlt => h (Or.inl hlt)
      omega
    simp [this]

/-- Bounds on `lastChangeTime` across one execution of `UpdateChange`, and what a recorded
event implies. -/
theorem MemoryCalculatedValue.UpdateChange_events
    (EqualToLast : MemoryCalculatedValue T → T → Bool) (now : Int)
    (s : MemoryCalculatedValue T) (hle : s.lastChangeTime ≤ now) :
    s.lastChangeTime ≤ (MemoryCalculatedValue.UpdateChange EqualToLast now s).2.lastChangeTime
    ∧ (MemoryCalculatedValue.UpdateChange EqualToLast now s).2.lastChangeTime ≤ now
    ∧ ∀ e ∈ MemoryCalculatedValue.noteChange
          (MemoryCalculatedValue.UpdateChange EqualToLast now s).1 now,
        e.time = now
        ∧ (MemoryCalculatedValue.UpdateChange EqualToLast now s).2.lastChangeTime = now
        ∧ (s.minChangeInterval : Int) ≤ now - s.lastChangeTime := by
  obtain ⟨_, ht, hf⟩ := MemoryCalculatedValue.UpdateChange_spacing EqualToLast now s
  cases hb : (MemoryCalculatedValue.UpdateChange EqualToLast now s).1
  · rw [hf hb]
    exact ⟨le_refl _, hle, by simp [MemoryCalculatedValue.noteChange]⟩
  · obtain ⟨h1, h2⟩ := ht hb
    rw [h1]
    refine ⟨hle, le_refl _, ?_⟩
    intro e he
    rw [MemoryCalculatedValue.mem_noteChange] at he
    rw [he.2]
    exact ⟨rfl, rfl, h2⟩

theorem MemoryCalculatedValue.pairwise_noteChange
    (R : MemoryCalculatedValue.ChangeEvent → MemoryCalculatedValue.ChangeEvent → Prop)
    (b : Bool) (now : Int) : List.Pairwise R (MemoryCalculatedValue.noteChange b now) := by
  cases b <;> simp [MemoryCalculatedValue.noteChange]

/-- One call at a clock reading not before `lastChangeTime`: `minChangeInterval` is kept,
`lastChangeTime` stays between its old value and `now`, every event of the call carries `now`
and leaves `lastChangeTime = now`, a recognized change comes at least `minChangeInterval` after
the old `lastChangeTime`, and two events of the same call respect the same spacing. -/
theorem MemoryCalculatedValue.exec_spacing (Calculate : σ → T × σ)
    (EqualToLast : MemoryCalculatedValue T → T → Bool) (now : Int)
    (op : MemoryCalculatedValue.Op T) (s : MemoryCalculatedValue T) (w : World σ)
    (hle : s.lastChangeTime ≤ now) :
    (MemoryCalculatedValue.Op.exec Calculate EqualToLast now op s w).1.minChangeInterval
        = s.minChangeInterval
    ∧ s.lastChangeTime
        ≤ (MemoryCalculatedValue.Op.exec Calculate EqualToLast now op s w).1.lastChangeTime
    ∧ (MemoryCalculatedValue.Op.exec Calculate EqualToLast now op s w).1.lastChangeTime ≤ now
    ∧ (∀ e ∈ (MemoryCalculatedValue.Op.exec Calculate EqualToLast now op s w).2.2,
        e.time = now
        ∧ (MemoryCalculatedValue.Op.exec Calculate EqualToLast now op s w).1.lastChangeTime
            = now
        ∧ (e.isRecognized = true → (s.minChangeInterval : Int) ≤ now - s.lastChangeTime))
    ∧ List.Pairwise
        (fun e1 e2 : MemoryCalculatedValue.ChangeEvent =>
          e2.isRecognized = true → (s.minChangeInterval : Int) ≤ e2.time - e1.time)
        (MemoryCalculatedValue.Op.exec Calculate EqualToLast now op s w).2.2 := by
  cases op with
  | get =>
    have h1 := MemoryCalculatedValue.UpdateChange_events EqualToLast now
      (MemoryCalculatedValue.afterBaseGet Calculate now s w).1 hle
    have m1 := (MemoryCalculatedValue.UpdateChange_spacing EqualToLast now
      (MemoryCalculatedValue.afterBaseGet Calculate now s w).1).1
    exact ⟨m1, h1.1, h1.2.1, fun e he => ⟨(h1.2.2 e he).1, (h1.2.2 e he).2.1,
      fun _ => (h1.2.2 e he).2.2⟩, MemoryCalculatedValue.pairwise_noteChange _ _ _⟩
  | lazyGet =>
    exact ⟨rfl, le_refl _, hle, fun e he => absurd he (List.not_mem_nil e), List.Pairwise.nil⟩
  | set val =>
    have h1 := MemoryCalculatedValue.UpdateChange_events EqualToLast now
      (MemoryCalculatedValue.afterBaseSet s) hle
    have m1 := (MemoryCalculatedValue.UpdateChange_spacing EqualToLast now
      (MemoryCalculatedValue.afterBaseSet s)).1
    exact ⟨m1, h1.1, h1.2.1, fun e he => ⟨(h1.2.2 e he).1, (h1.2.2 e he).2.1,
      fun _ => (h1.2.2 e he).2.2⟩, MemoryCalculatedValue.pairwise_noteChange _ _ _⟩
  | updateChange =>
    have h1 := MemoryCalculatedValue.UpdateChange_events EqualToLast now s hle
    have m1 := (MemoryCalculatedValue.UpdateChange_spacing EqualToLast now s).1
    exact ⟨m1, h1.1, h1.2.1, fun e he => ⟨(h1.2.2 e he).1, (h1.2.2 e he).2.1,
      fun _ => (h1.2.2 e he).2.2⟩, MemoryCalculatedValue.pairwise_noteChange _ _ _⟩
  | lastChangeOn =>
    have h1 := MemoryCalculatedValue.UpdateChange_events EqualToLast now
      (MemoryCalculatedValue.afterBaseGet Calculate now s w).1 hle
    have m1 : (MemoryCalculatedValue.Get Calculate EqualToLast now s w).2.1.minChangeInterval
        = s.minChangeInterval :=
      (MemoryCalculatedValue.UpdateChange_spacing EqualToLast now
        (MemoryCalculatedValue.afterBaseGet Calculate now s w).1).1
    have l1 : s.lastChangeTime
        ≤ (MemoryCalculatedValue.Get Calculate EqualToLast now s w).2.1.lastChangeTime := h1.1
    have u1 : (MemoryCalculatedValue.Get Calculate EqualToLast now s w).2.1.lastChangeTime
        ≤ now := h1.2.1
    have h2 := MemoryCalculatedValue.UpdateChange_events EqualToLast now
      (MemoryCalculatedValue.Get Calculate EqualToLast now s w).2.1 u1
    have m2 := (MemoryCalculatedValue.UpdateChange_spacing EqualToLast now
      (MemoryCalculatedValue.Get Calculate EqualToLast now s w).2.1).1
    rw [m1] at h2 m2
    have e1 : ∀ e ∈ MemoryCalculatedValue.noteChange
        (MemoryCalculatedValue.UpdateChange EqualToLast now
          (MemoryCalculatedValue.afterBaseGet Calculate now s w).1).1 now,
        e.time = now
        ∧ (MemoryCalculatedValue.Get Calculate EqualToLast now s w).2.1.lastChangeTime = now
        ∧ (s.minChangeInterval : Int) ≤ now - s.lastChangeTime := h1.2.2
    have l3 : (MemoryCalculatedValue.Get Calculate EqualToLast now s w).2.1.lastChangeTime
        ≤ (MemoryCalculatedValue.Op.exec Calculate EqualToLast now
            MemoryCalculatedValue.Op.lastChangeOn s w).1.lastChangeTime := h2.1
    have u3 : (MemoryCalculatedValue.Op.exec Calculate EqualToLast now
        MemoryCalculatedValue.Op.lastChangeOn s w).1.lastChangeTime ≤ now := h2.2.1
    have e2 : ∀ e ∈ MemoryCalculatedValue.noteChange
        (MemoryCalculatedValue.UpdateChange EqualToLast now
          (MemoryCalculatedValue.Get Calculate EqualToLast now s w).2.1).1 now,
        e.time = now
        ∧ (MemoryCalculatedValue.Op.exec Calculate EqualToLast now
            MemoryCalculatedValue.Op.lastChangeOn s w).1.lastChangeTime = now
        ∧ (s.minChangeInterval : Int)
            ≤ now - (MemoryCalculatedValue.Get Calculate EqualToLast now s w).2.1.lastChangeTime :=
      h2.2.2
    refine ⟨m2, le_trans l1 l3, u3, ?_, ?_⟩
    · intro e he
      rcases List.mem_append.1 he with h | h
      · have a := e1 e h
        exact ⟨a.1, le_antisymm u3 (le_of_eq_of_le a.2.1.symm l3), fun _ => a.2.2⟩
      · have a := e2 e h
        exact ⟨a.1, a.2.1, fun _ => le_trans a.2.2 (by omega)⟩
    · refine List.pairwise_append.2 ⟨MemoryCalculatedValue.pairwise_noteChange _ _ _,
        MemoryCalculatedValue.pairwise_noteChange _ _ _, ?_⟩
      intro x hx y hy _
      have a := e1 x hx
      have b := e2 y hy
      rw [a.1, b.1]
      have c := b.2.2
      rw [a.2.1] at c
      exact c
  | reset =>
    refine ⟨rfl, hle, le_refl _, ?_, List.pairwise_singleton _ _⟩
    intro e he
    rw [List.mem_singleton.1 he]
    exact ⟨rfl, rfl, fun h => by simp [MemoryCalculatedValue.ChangeEvent.isRecognized] at h⟩

/-- Along a trace with non-decreasing clock readings, none earlier than `lastChangeTime`:
every recognized change comes at least `minChangeInterval` after every earlier event of the
trace and after the initial `lastChangeTime`. -/
theorem MemoryCalculatedValue.run_spacing (Calculate : σ → T × σ)
    (EqualToLast : MemoryCalculatedValue T → T → Bool)
    (ops : List (Int × MemoryCalculatedValue.Op T)) (s : MemoryCalculatedValue T)
    (w : World σ) (lo : Int) (hle : s.lastChangeTime ≤ lo)
    (hmono : List.Chain (fun a b : Int => a ≤ b) lo (ops.map Prod.fst)) :
    List.Pairwise
        (fun e1 e2 : MemoryCalculatedValue.ChangeEvent =>
          e2.isRecognized = true → (s.minChangeInterval : Int) ≤ e2.time - e1.time)
        (MemoryCalculatedValue.run Calculate EqualToLast ops s w).2.2
    ∧ ∀ e ∈ (MemoryCalculatedValue.run Calculate EqualToLast ops s w).2.2,
        e.isRecognized = true → (s.minChangeInterval : Int) ≤ e.time - s.lastChangeTime := by
  induction ops generalizing s w lo with
  | nil => exact ⟨List.Pairwise.nil, fun e he => absurd he (List.not_mem_nil e)⟩
  | cons c cs ih =>
    rw [List.map_cons, List.chain_cons] at hmono
    obtain ⟨hm, hl, hu, hev, hpw⟩ :=
      MemoryCalculatedValue.exec_spacing Calculate EqualToLast c.1 c.2 s w
        (le_trans hle hmono.1)
    have ih2 := ih (MemoryCalculatedValue.Op.exec Calculate EqualToLast c.1 c.2 s w).1
      (MemoryCalculatedValue.Op.exec Calculate EqualToLast c.1 c.2 s w).2.1 c.1 hu hmono.2
    rw [hm] at ih2
    have hrun : (MemoryCalculatedValue.run Calculate EqualToLast (c :: cs) s w).2.2
        = (MemoryCalculatedValue.Op.exec Calculate EqualToLast c.1 c.2 s w).2.2
          ++ (MemoryCalculatedValue.run Calculate EqualToLast cs
              (MemoryCalculatedValue.Op.exec Calculate EqualToLast c.1 c.2 s w).1
              (MemoryCalculatedValue.Op.exec Calculate EqualToLast c.1 c.2 s w).2.1).2.2 := rfl
    rw [hrun]
    refine ⟨List.pairwise_append.2 ⟨hpw, ih2.1, ?_⟩, ?_⟩
    · intro x hx y hy hy2
      have a := hev x hx
      have b := ih2.2 y hy hy2
      rw [a.2.1] at b
      rw [a.1]
      exact b
    · intro e he he2
      rcases List.mem_append.1 he with h | h
      · have a := hev e h
        rw [a.1]
        exact a.2.2 he2
      · have b := ih2.2 e h he2
        omega

/-- C7: for a tracked cell constructed at `t0` with `minChangeInterval = m` and driven by a
non-decreasing clock through any sequence of `Get`, `Set`, `LazyGet`, `UpdateChange`,
`LastChangeOn` and `Reset` calls, every execution of `UpdateChange` that returns `true` happens
at least `m` after every earlier such execution, after every earlier `Reset` and after the
construction; hence any window of length `m` (in particular any window shorter than `m`)
contains at most one recognized change. -/
theorem c7_change_hysteresis (Calculate : σ → T × σ)
    (EqualToLast : MemoryCalculatedValue T → T → Bool) (t0 checkInterval : Int) (m : Nat)
    (init initLast : T) (w : World σ) (ops : List (Int × MemoryCalculatedValue.Op T))
    (hmono : List.Chain (fun a b : Int => a ≤ b) t0 (ops.map Prod.fst)) :
    List.Pairwise
        (fun e1 e2 : MemoryCalculatedValue.ChangeEvent =>
          e2.isRecognized = true →
            ((MemoryCalculatedValue.new t0 checkInterval m init initLast).minChangeInterval : Int)
              ≤ e2.time - e1.time)
        (MemoryCalculatedValue.ChangeEvent.constructed t0 ::
          (MemoryCalculatedValue.run Calculate EqualToLast ops
            (MemoryCalculatedValue.new t0 checkInterval m init initLast) w).2.2)
    ∧ ∀ a : Int,
        ((MemoryCalculatedValue.ChangeEvent.constructed t0 ::
            (MemoryCalculatedValue.run Calculate EqualToLast ops
              (MemoryCalculatedValue.new t0 checkInterval m init initLast) w).2.2).filter
          (fun e => e.isRecognized && decide (a ≤ e.time)
            && decide (e.time < a
                + ((MemoryCalculatedValue.new t0 checkInterval m init
                    initLast).minChangeInterval : Int)))).length ≤ 1 := by
  have hrun := MemoryCalculatedValue.run_spacing Calculate EqualToLast ops
    (MemoryCalculatedValue.new t0 checkInterval m init initLast) w t0 (le_refl _) hmono
  have hpw : List.Pairwise
      (fun e1 e2 : MemoryCalculatedValue.ChangeEvent =>
        e2.isRecognized = true →
          ((MemoryCalculatedValue.new t0 checkInterval m init initLast).minChangeInterval : Int)
            ≤ e2.time - e1.time)
      (MemoryCalculatedValue.ChangeEvent.constructed t0 ::
        (MemoryCalculatedValue.run Calculate EqualToLast ops
          (MemoryCalculatedValue.new t0 checkInterval m init initLast) w).2.2) :=
    List.pairwise_cons.2 ⟨fun e he he2 => hrun.2 e he he2, hrun.1⟩
  refine ⟨hpw, fun a => ?_⟩
  have hf := hpw.filter (fun e => e.isRecognized && decide (a ≤ e.time)
    && decide (e.time < a
      + ((MemoryCalculatedValue.new t0 checkInterval m init initLast).minChangeInterval : Int)))
  generalize hl : List.filter _ _ = l at hf
  match l, hl with
  | [], _ => simp
  | [_], _ => simp
  | x :: y :: rest, hl =>
    exfalso
    have hx : x ∈ x :: y :: rest := List.mem_cons_self _ _
    have hy : y ∈ x :: y :: rest := List.mem_cons_of_mem _ (List.mem_cons_self _ _)
    rw [← hl] at hx hy
    have px := (List.mem_filter.1 hx).2
    have py := (List.mem_filter.1 hy).2
    simp only [Bool.and_eq_true, decide_eq_true_eq] at px py
    have g := (List.pairwise_cons.1 hf).1 y (List.mem_cons_self _ _) py.1.1
    omega

/-- C7 on a cell with `minChangeInterval = 5` whose value changes at every `Get`
(`checkInterval = 1`, counter as `Calculate`): of the `Get` calls at 1002, 1005, 1007, 1010,
1013 and 1017, with a `Reset` at 1012, only those at 1005, 1010 and 1017 recognize a change. -/
theorem c7_change_hysteresis_witness :
    (MemoryCalculatedValue.run counterCalculate sameAsLast
        [(1002, MemoryCalculatedValue.Op.get), (1005, MemoryCalculatedValue.Op.get),
          (1007, MemoryCalculatedValue.Op.get), (1010, MemoryCalculatedValue.Op.get),
          (1012, MemoryCalculatedValue.Op.reset), (1013, MemoryCalculatedValue.Op.get),
          (1017, MemoryCalculatedValue.Op.get)]
        (MemoryCalculatedValue.new 1000 1 5 0 0) { ctx := 0, calls := 0 }).2.2
      = [MemoryCalculatedValue.ChangeEvent.recognized 1005,
          MemoryCalculatedValue.ChangeEvent.recognized 1010,
          MemoryCalculatedValue.ChangeEvent.reset 1012,
          MemoryCalculatedValue.ChangeEvent.recognized 1017]
    ∧ ((MemoryCalculatedValue.ChangeEvent.constructed 1000 ::
          (MemoryCalculatedValue.run counterCalculate sameAsLast
            [(1002, MemoryCalculatedValue.Op.get), (1005, MemoryCalculatedValue.Op.get),
              (1007, MemoryCalculatedValue.Op.get), (1010, MemoryCalculatedValue.Op.get),
              (1012, MemoryCalculatedValue.Op.reset), (1013, MemoryCalculatedValue.Op.get),
              (1017, MemoryCalculatedValue.Op.get)]
            (MemoryCalculatedValue.new 1000 1 5 0 0) { ctx := 0, calls := 0 }).2.2).filter
        (fun e => e.isRecognized && decide ((1003 : Int) ≤ e.time)
          && decide (e.time < 1003
              + ((MemoryCalculatedValue.new 1000 1 5 0 0 :
                  MemoryCalculatedValue Nat).minChangeInterval : Int)))).length ≤ 1 :=
  ⟨by decide,
    (c7_change_hysteresis counterCalculate sameAsLast 1000 1 5 0 0 { ctx := 0, calls := 0 }
      [(1002, MemoryCalculatedValue.Op.get), (1005, MemoryCalculatedValue.Op.get),
        (1007, MemoryCalculatedValue.Op.get), (1010, MemoryCalculatedValue.Op.get),
        (1012, MemoryCalculatedValue.Op.reset), (1013, MemoryCalculatedValue.Op.get),
        (1017, MemoryCalculatedValue.Op.get)] (by simp)).2 1003⟩

/-! ## Capacity of the history log -/

/-- Appending one entry to the last `L` entries of `acc` and popping the front when the result
is longer than `L` gives the last `L` entries of `acc ++ [e]`. -/
theorem LogCalculatedValue.push_evict {α : Type} (acc : List α) (e : α) (L : Nat) :
    (if L < (acc.drop (acc.length - L) ++ [e]).length
      then (acc.drop (acc.length - L) ++ [e]).drop 1
      else acc.drop (acc.length - L) ++ [e])
      = (acc ++ [e]).drop ((acc ++ [e]).length - L) := by
  have hd : acc.drop (acc.length - L) ++ [e] = (acc ++ [e]).drop (acc.length - L) :=
    (List.drop_append_of_le_length (Nat.sub_le _ _)).symm
  rw [hd]
  simp only [List.length_drop, List.length_append, List.length_singleton, List.drop_drop]
  split
  · congr 1
    omega
  · congr 1
    omega

/-- One execution of the overriding `UpdateChange` keeps the log equal to the last `logLength`
entries pushed. -/
theorem LogCalculatedValue.UpdateChange_log
    (EqualToLast : MemoryCalculatedValue T → T → Bool) (now : Int) (s : LogCalculatedValue T)
    (acc : List (T × Int)) (hinv : s.valueLog = acc.drop (acc.length - s.logLength)) :
    (LogCalculatedValue.UpdateChange EqualToLast now s).2.logLength = s.logLength
    ∧ (LogCalculatedValue.UpdateChange EqualToLast now s).2.valueLog
        = (acc ++ LogCalculatedValue.pushed EqualToLast now s).drop
            ((acc ++ LogCalculatedValue.pushed EqualToLast now s).length - s.logLength) := by
  have hf := MemoryCalculatedValue.UpdateChange_frame EqualToLast now s.toMemoryCalculatedValue
  have hv : (MemoryCalculatedValue.UpdateChange EqualToLast now
      s.toMemoryCalculatedValue).2.value = s.value := congrArg CalculatedValue.value hf.1
  cases hb : (MemoryCalculatedValue.UpdateChange EqualToLast now s.toMemoryCalculatedValue).1
  · rw [LogCalculatedValue.UpdateChange_of_base_false EqualToLast now s hb]
    refine ⟨rfl, ?_⟩
    have hp : LogCalculatedValue.pushed EqualToLast now s = [(s.value, now)] := by
      unfold LogCalculatedValue.pushed
      rw [hb, hv]
      rfl
    rw [hp]
    show (if s.logLength < (s.valueLog ++ [(s.value, now)]).length
        then (s.valueLog ++ [(s.value, now)]).drop 1
        else s.valueLog ++ [(s.value, now)]) = _
    rw [hinv]
    exact LogCalculatedValue.push_evict acc (s.value, now) s.logLength
  · rw [LogCalculatedValue.UpdateChange_of_base_true EqualToLast now s hb]
    refine ⟨rfl, ?_⟩
    have hp : LogCalculatedValue.pushed EqualToLast now s = [] := by
      unfold LogCalculatedValue.pushed
      rw [hb]
      rfl
    rw [hp, List.append_nil]
    exact hinv

/-- Every call keeps `logLength` and keeps the log equal to the last `logLength` entries pushed
since construction or the last `Reset`. -/
theorem LogCalculatedValue.exec_log (Calculate : σ → T × σ)
    (EqualToLast : MemoryCalculatedValue T → T → Bool) (now : Int)
    (op : LogCalculatedValue.Op T) (s : LogCalculatedValue T) (w : World σ)
    (acc : List (T × Int)) (hinv : s.valueLog = acc.drop (acc.length - s.logLength)) :
    (LogCalculatedValue.Op.exec Calculate EqualToLast now op s w acc).1.logLength = s.logLength
    ∧ (LogCalculatedValue.Op.exec Calculate EqualToLast now op s w acc).1.valueLog
        = (LogCalculatedValue.Op.exec Calculate EqualToLast now op s w acc).2.2.drop
            ((LogCalculatedValue.Op.exec Calculate EqualToLast now op s w acc).2.2.length
              - s.logLength) := by
  cases op with
  | get =>
    exact LogCalculatedValue.UpdateChange_log EqualToLast now
      { s with toMemoryCalculatedValue :=
        (MemoryCalculatedValue.afterBaseGet Calculate now s.toMemoryCalculatedValue w).1 }
      acc hinv
  | lazyGet => exact ⟨rfl, hinv⟩
  | set val =>
    exact LogCalculatedValue.UpdateChange_log EqualToLast now
      { s with toMemoryCalculatedValue :=
        MemoryCalculatedValue.afterBaseSet s.toMemoryCalculatedValue }
      acc hinv
  | updateChange => exact LogCalculatedValue.UpdateChange_log EqualToLast now s acc hinv
  | lastChangeOn =>
    have h1 := LogCalculatedValue.UpdateChange_log EqualToLast now
      { s with toMemoryCalculatedValue :=
        (MemoryCalculatedValue.afterBaseGet Calculate now s.toMemoryCalculatedValue w).1 }
      acc hinv
    have l1 : (LogCalculatedValue.Get Calculate EqualToLast now s w).2.1.logLength
        = s.logLength := h1.1
    have v1 : (LogCalculatedValue.Get Calculate EqualToLast now s w).2.1.valueLog
        = (acc ++ LogCalculatedValue.pushed EqualToLast now
            { s with toMemoryCalculatedValue :=
              (MemoryCalculatedValue.afterBaseGet Calculate now
                s.toMemoryCalculatedValue w).1 }).drop
          ((acc ++ LogCalculatedValue.pushed EqualToLast now
            { s with toMemoryCalculatedValue :=
              (MemoryCalculatedValue.afterBaseGet Calculate now
                s.toMemoryCalculatedValue w).1 }).length
            - (LogCalculatedValue.Get Calculate EqualToLast now s w).2.1.logLength) := by
      rw [l1]
      exact h1.2
    have h2 := LogCalculatedValue.UpdateChange_log EqualToLast now
      (LogCalculatedValue.Get Calculate EqualToLast now s w).2.1 _ v1
    rw [l1] at h2
    exact h2
  | reset =>
    refine ⟨rfl, ?_⟩
    show ([] : List (T × Int)) = ([] : List (T × Int)).drop _
    simp

/-- Along any trace the log is the last `logLength` entries pushed since construction or the
last `Reset`. -/
theorem LogCalculatedValue.run_log (Calculate : σ → T × σ)
    (EqualToLast : MemoryCalculatedValue T → T → Bool)
    (ops : List (Int × LogCalculatedValue.Op T)) (s : LogCalculatedValue T) (w : World σ)
    (acc : List (T × Int)) (hinv : s.valueLog = acc.drop (acc.length - s.logLength)) :
    (LogCalculatedValue.run Calculate EqualToLast ops s w acc).1.logLength = s.logLength
    ∧ (LogCalculatedValue.run Calculate EqualToLast ops s w acc).1.valueLog
        = (LogCalculatedValue.run Calculate EqualToLast ops s w acc).2.2.drop
            ((LogCalculatedValue.run Calculate EqualToLast ops s w acc).2.2.length
              - s.logLength) := by
  induction ops generalizing s w acc with
  | nil => exact ⟨rfl, hinv⟩
  | cons c cs ih =>
    have h1 := LogCalculatedValue.exec_log Calculate EqualToLast c.1 c.2 s w acc hinv
    have h2 := ih (LogCalculatedValue.Op.exec Calculate EqualToLast c.1 c.2 s w acc).1
      (LogCalculatedValue.Op.exec Calculate EqualToLast c.1 c.2 s w acc).2.1
      (LogCalculatedValue.Op.exec Calculate EqualToLast c.1 c.2 s w acc).2.2
      (by rw [h1.1]; exact h1.2)
    rw [h1.1] at h2
    exact h2

/-- C10: take a history cell with `logLength = 10` (as constructed) and any trace of calls on
it; let the pushed entries be those appended by `UpdateChange` since construction or the last
`Reset`.  If there are `n > 10` of them, `ValueLog()` has exactly 10 entries, namely the pushed
entries without the first `n - 10 >= 1`, in order: position `i` of the log holds pushed entry
number `n - 10 + i`, so the earliest-appended entry has been evicted (and no entry equal to it
remains unless an equal entry was appended later). -/
theorem c10_log_capacity (Calculate : σ → T × σ)
    (EqualToLast : MemoryCalculatedValue T → T → Bool) (t0 checkInterval : Int) (m : Nat)
    (init initLast : T) (w : World σ) (ops : List (Int × LogCalculatedValue.Op T))
    (hn : 10 < (LogCalculatedValue.run Calculate EqualToLast ops
      (LogCalculatedValue.new t0 checkInterval m init initLast) w []).2.2.length) :
    (LogCalculatedValue.ValueLog (LogCalculatedValue.run Calculate EqualToLast ops
        (LogCalculatedValue.new t0 checkInterval m init initLast) w []).1).length = 10
    ∧ LogCalculatedValue.ValueLog (LogCalculatedValue.run Calculate EqualToLast ops
        (LogCalculatedValue.new t0 checkInterval m init initLast) w []).1
        = (LogCalculatedValue.run Calculate EqualToLast ops
            (LogCalculatedValue.new t0 checkInterval m init initLast) w []).2.2.drop
          ((LogCalculatedValue.run Calculate EqualToLast ops
            (LogCalculatedValue.new t0 checkInterval m init initLast) w []).2.2.length - 10)
    ∧ (∀ i : Nat,
        (LogCalculatedValue.ValueLog (LogCalculatedValue.run Calculate EqualToLast ops
            (LogCalculatedValue.new t0 checkInterval m init initLast) w []).1)[i]?
          = (LogCalculatedValue.run Calculate EqualToLast ops
              (LogCalculatedValue.new t0 checkInterval m init initLast) w []).2.2[
                ((LogCalculatedValue.run Calculate EqualToLast ops
                  (LogCalculatedValue.new t0 checkInterval m init initLast) w []).2.2.length
                  - 10) + i]?)
    ∧ 1 ≤ (LogCalculatedValue.run Calculate EqualToLast ops
            (LogCalculatedValue.new t0 checkInterval m init initLast) w []).2.2.length - 10
    ∧ ∀ e, (LogCalculatedValue.run Calculate EqualToLast ops
            (LogCalculatedValue.new t0 checkInterval m init initLast) w []).2.2.head? = some e →
        e ∉ (LogCalculatedValue.run Calculate EqualToLast ops
            (LogCalculatedValue.new t0 checkInterval m init initLast) w []).2.2.tail →
        e ∉ LogCalculatedValue.ValueLog (LogCalculatedValue.run Calculate EqualToLast ops
            (LogCalculatedValue.new t0 checkInterval m init initLast) w []).1 := by
  have h := (LogCalculatedValue.run_log Calculate EqualToLast ops
    (LogCalculatedValue.new t0 checkInterval m init initLast) w [] rfl).2
  have hL : (LogCalculatedValue.new t0 checkInterval m init initLast).logLength = 10 := rfl
  rw [hL] at h
  unfold LogCalculatedValue.ValueLog
  generalize (LogCalculatedValue.run Calculate EqualToLast ops
    (LogCalculatedValue.new t0 checkInterval m init initLast) w []).2.2 = pushedAll at h hn
  refine ⟨?_, h, ?_, by omega, ?_⟩
  · rw [h, List.length_drop]
    omega
  · intro i
    rw [h, List.getElem?_drop]
  · intro e _ hnot hmem
    rw [h] at hmem
    apply hnot
    have hk : pushedAll.length - 10 = 1 + (pushedAll.length - 11) := by omega
    rw [hk, ← List.drop_drop, List.drop_one] at hmem
    exact List.mem_of_mem_drop hmem

/-- C10 on a freshly constructed cell whose value stays equal to the recorded one: each of
twelve `UpdateChange` calls (1001 to 1012) appends, and the log ends with the ten entries
stamped 1003 to 1012; the entries stamped 1001 and 1002 are gone. -/
theorem c10_log_capacity_witness :
    (LogCalculatedValue.run counterCalculate sameAsLast LogCalculatedValue.twelveUpdates
        (LogCalculatedValue.new 1000 1 0 0 0) { ctx := 0, calls := 0 } []).2.2.length = 12
    ∧ LogCalculatedValue.ValueLog
        (LogCalculatedValue.run counterCalculate sameAsLast LogCalculatedValue.twelveUpdates
          (LogCalculatedValue.new 1000 1 0 0 0) { ctx := 0, calls := 0 } []).1
        = [(0, 1003), (0, 1004), (0, 1005), (0, 1006), (0, 1007), (0, 1008), (0, 1009),
            (0, 1010), (0, 1011), (0, 1012)]
    ∧ (LogCalculatedValue.ValueLog
        (LogCalculatedValue.run counterCalculate sameAsLast LogCalculatedValue.twelveUpdates
          (LogCalculatedValue.new 1000 1 0 0 0) { ctx := 0, calls := 0 } []).1).length = 10 :=
  ⟨by decide, by decide,
    (c10_log_capacity counterCalculate sameAsLast 1000 1 0 0 0 { ctx := 0, calls := 0 }
      LogCalculatedValue.twelveUpdates (by decide)).1⟩

/-! ## `ManualSetValue` -/

theorem ManualSetValue.run_append (ops : List (ManualSetValue.Op T)) (c : ManualSetValue.Op T)
    (s : ManualSetValue T) :
    ManualSetValue.run (ops ++ [c]) s = ManualSetValue.Op.exec c (ManualSetValue.run ops s) := by
  induction ops generalizing s with
  | nil => rfl
  | cons a as ih => exact ih (ManualSetValue.Op.exec a s)

/-- After any call history on a cell constructed with default `d`, the stored value is what
the history reads as, and the default is still `d`. -/
theorem ManualSetValue.run_value (d : T) (ops : List (ManualSetValue.Op T)) :
    (ManualSetValue.run ops (ManualSetValue.new d)).value
        = ManualSetValue.latestSetSinceReset d ops.reverse
    ∧ (ManualSetValue.run ops (ManualSetValue.new d)).defaultValue = d := by
  induction ops using List.reverseRecOn with
  | nil => exact ⟨rfl, rfl⟩
  | append_singleton as a ih =>
    rw [ManualSetValue.run_append, List.reverse_append, List.reverse_singleton,
      List.singleton_append]
    cases a with
    | get => exact ih
    | lazyGet => exact ih
    | set val => exact ⟨rfl, ih.2⟩
    | reset => exact ⟨ih.2, ih.2⟩

/-- C11: for a manual cell constructed with default `d` and any sequence of `Set`, `Reset`,
`Get` and `LazyGet` calls, `Get` and `LazyGet` leave the cell as it is and both return the
argument of the most recent `Set` made after the most recent `Reset`, or `d` when there is
none; `defaultValue` is still `d`.  With `d = 0`, `Set(42)` then `Reset` then `Get` returns
0. -/
theorem c11_manual_value (d : T) (ops : List (ManualSetValue.Op T)) :
    ManualSetValue.Get (ManualSetValue.run ops (ManualSetValue.new d))
        = (ManualSetValue.latestSetSinceReset d ops.reverse,
            ManualSetValue.run ops (ManualSetValue.new d))
    ∧ ManualSetValue.LazyGet (ManualSetValue.run ops (ManualSetValue.new d))
        = (ManualSetValue.latestSetSinceReset d ops.reverse,
            ManualSetValue.run ops (ManualSetValue.new d))
    ∧ (ManualSetValue.run ops (ManualSetValue.new d)).defaultValue = d
    ∧ (ManualSetValue.Get (ManualSetValue.run
          [ManualSetValue.Op.set 42, ManualSetValue.Op.reset]
          (ManualSetValue.new (0 : Nat)))).1 = 0 := by
  have h := ManualSetValue.run_value d ops
  refine ⟨?_, ?_, h.2, rfl⟩
  · unfold ManualSetValue.Get
    rw [h.1]
  · unfold ManualSetValue.LazyGet
    rw [h.1]

/-! ## `Reset` and `Set` of `CalculatedValue` -/

/-- C12: `Reset` sets `lastCheckTime` to 0 and leaves `value` and `checkInterval` as they
were; from any state, the `Get` that follows a `Reset`, and equally the `LazyGet` that follows
a `Reset`, invokes `Calculate` (once) and returns its result, whatever `checkInterval` and the
clock reading are. -/
theorem c12_reset_forces_recompute (Calculate : σ → T × σ) (now : Int)
    (s : CalculatedValue T) (w : World σ) :
    CalculatedValue.Reset s
        = { checkInterval := s.checkInterval, lastCheckTime := 0, value := s.value }
    ∧ CalculatedValue.Get Calculate now (CalculatedValue.Reset s) w
        = ((Calculate w.ctx).1,
            { checkInterval := s.checkInterval, lastCheckTime := now,
              value := (Calculate w.ctx).1 },
            { ctx := (Calculate w.ctx).2, calls := w.calls + 1 })
    ∧ CalculatedValue.LazyGet Calculate now (CalculatedValue.Reset s) w
        = ((Calculate w.ctx).1,
            { checkInterval := s.checkInterval, lastCheckTime := now,
              value := (Calculate w.ctx).1 },
            { ctx := (Calculate w.ctx).2, calls := w.calls + 1 }) := by
  have hg := CalculatedValue.Get_of_mustRecompute Calculate now (CalculatedValue.Reset s) w
    (Or.inl rfl)
  refine ⟨rfl, hg, ?_⟩
  rw [CalculatedValue.LazyGet_of_eq_zero Calculate now (CalculatedValue.Reset s) w rfl]
  exact hg

/-- C13 as stated fails: on a computed cell with `checkInterval = 10` last checked at 1000,
`Set(1)` followed by `Get` at 1005 returns 1 although the recompute condition holds, because
the recomputation itself yields 1. -/
theorem c13_set_then_get_counterexample :
    ¬ ((CalculatedValue.Get counterCalculate 1005
          (CalculatedValue.Set 1 { checkInterval := 10, lastCheckTime := 1000, value := 0 })
          { ctx := 0, calls := 0 }).1 = 1
        ↔ ¬ CalculatedValue.mustRecompute 1005
            (CalculatedValue.Set 1
              ({ checkInterval := 10, lastCheckTime := 1000, value := 0 } :
                CalculatedValue Nat))) := by
  decide

/-- C13, amended: `Set(v)` overwrites `value` with `v` and leaves `lastCheckTime` and
`checkInterval` unchanged.  Hence on a computed cell (`lastCheckTime != 0`) a `LazyGet` after
`Set(v)` returns `v`; a `Get` after `Set(v)` answers `v` from the cache, with the cell and the
context untouched, exactly when the recompute condition of `Get` is false at that time, and
otherwise invokes `Calculate`, stores its result in place of `v` and returns it.  So the
value returned is `v` exactly when the condition is false or `Calculate` itself yields `v`. -/
theorem c13_set_then_get (Calculate : σ → T × σ) (now : Int) (v : T) (s : CalculatedValue T)
    (w : World σ) :
    CalculatedValue.Set v s
        = { checkInterval := s.checkInterval, lastCheckTime := s.lastCheckTime, value := v }
    ∧ (s.lastCheckTime ≠ 0 →
        CalculatedValue.LazyGet Calculate now (CalculatedValue.Set v s) w
          = (v, CalculatedValue.Set v s, w))
    ∧ (CalculatedValue.Get Calculate now (CalculatedValue.Set v s) w
          = (v, CalculatedValue.Set v s, w)
        ↔ ¬ CalculatedValue.mustRecompute now (CalculatedValue.Set v s))
    ∧ (CalculatedValue.mustRecompute now (CalculatedValue.Set v s) →
        CalculatedValue.Get Calculate now (CalculatedValue.Set v s) w
          = ((Calculate w.ctx).1,
              { checkInterval := s.checkInterval, lastCheckTime := now,
                value := (Calculate w.ctx).1 },
              { ctx := (Calculate w.ctx).2, calls := w.calls + 1 }))
    ∧ ((CalculatedValue.Get Calculate now (CalculatedValue.Set v s) w).1 = v
        ↔ (¬ CalculatedValue.mustRecompute now (CalculatedValue.Set v s)
            ∨ (Calculate w.ctx).1 = v)) := by
  refine ⟨rfl, fun h => CalculatedValue.LazyGet_of_ne_zero Calculate now _ w h, ?_,
    fun h => CalculatedValue.Get_of_mustRecompute Calculate now _ w h, ?_⟩
  · by_cases h : CalculatedValue.mustRecompute now (CalculatedValue.Set v s)
    · rw [CalculatedValue.Get_of_mustRecompute Calculate now _ w h]
      refine ⟨fun he => ?_, fun hn => absurd h hn⟩
      have hc := congrArg (fun r => r.2.2.calls) he
      simp at hc
    · rw [CalculatedValue.Get_of_not_mustRecompute Calculate now _ w h]
      exact ⟨fun _ => h, fun _ => rfl⟩
  · by_cases h : CalculatedValue.mustRecompute now (CalculatedValue.Set v s)
    · rw [CalculatedValue.Get_of_mustRecompute Calculate now _ w h]
      exact ⟨fun he => Or.inr he, fun ho => ho.elim (fun hn => absurd h hn) id⟩
    · rw [CalculatedValue.Get_of_not_mustRecompute Calculate now _ w h]
      exact ⟨fun _ => Or.inl h, fun _ => rfl⟩

/-- C13 (amended) on a computed cell with `checkInterval = 10` last checked at 1000: after
`Set(42)`, `LazyGet` a day later returns 42, `Get` at 1004 returns 42 from the cache, and `Get`
at 1005 recomputes and returns 1. -/
theorem c13_set_then_get_witness :
    CalculatedValue.LazyGet counterCalculate 87400
        (CalculatedValue.Set 42 { checkInterval := 10, lastCheckTime := 1000, value := 0 })
        { ctx := 0, calls := 0 }
      = (42, { checkInterval := 10, lastCheckTime := 1000, value := 42 },
          { ctx := 0, calls := 0 })
    ∧ CalculatedValue.Get counterCalculate 1004
        (CalculatedValue.Set 42 { checkInterval := 10, lastCheckTime := 1000, value := 0 })
        { ctx := 0, calls := 0 }
      = (42, { checkInterval := 10, lastCheckTime := 1000, value := 42 },
          { ctx := 0, calls := 0 })
    ∧ CalculatedValue.Get counterCalculate 1005
        (CalculatedValue.Set 42 { checkInterval := 10, lastCheckTime := 1000, value := 0 })
        { ctx := 0, calls := 0 }
      = (1, { checkInterval := 10, lastCheckTime := 1005, value := 1 },
          { ctx := 1, calls := 1 }) :=
  ⟨(c13_set_then_get counterCalculate 87400 42
      { checkInterval := 10, lastCheckTime := 1000, value := 0 }
      { ctx := 0, calls := 0 }).2.1 (by decide),
   (c13_set_then_get counterCalculate 1004 42
      { checkInterval := 10, lastCheckTime := 1000, value := 0 }
      { ctx := 0, calls := 0 }).2.2.1.2 (by decide),
   (c13_set_then_get counterCalculate 1005 42
      { checkInterval := 10, lastCheckTime := 1000, value := 0 }
      { ctx := 0, calls := 0 }).2.2.2.1 (by decide)⟩

/-! ## `LastChangeOn` and `LastChangeDelay` -/

/-- C15: `Reset` of a history cell at clock reading `now` leaves the log empty, sets
`lastCheckTime` to 0 and `lastChangeTime` to `now`, and leaves `value`, `lastValue`,
`logLength`, `minChangeInterval` (and `checkInterval`) as they were; `Reset` of a plain
tracked cell does the same without the log. -/
theorem c15_reset_frame (now : Int) (h : LogCalculatedValue T) (s : MemoryCalculatedValue T) :
    LogCalculatedValue.Reset now h
        = { checkInterval := h.checkInterval, lastCheckTime := 0, value := h.value,
            lastValue := h.lastValue, minChangeInterval := h.minChangeInterval,
            lastChangeTime := now, valueLog := [], logLength := h.logLength }
    ∧ LogCalculatedValue.ValueLog (LogCalculatedValue.Reset now h) = []
    ∧ MemoryCalculatedValue.Reset now s
        = { checkInterval := s.checkInterval, lastCheckTime := 0, value := s.value,
            lastValue := s.lastValue, minChangeInterval := s.minChangeInterval,
            lastChangeTime := now } :=
  ⟨rfl, rfl, rfl⟩

/-! ## The history log as a bounded queue -/

/-- One execution of the overriding `UpdateChange` changes the log only by appending what it
pushed at the back and removing at most one entry at the front. -/
theorem LogCalculatedValue.UpdateChange_front_back
    (EqualToLast : MemoryCalculatedValue T → T → Bool) (now : Int) (s : LogCalculatedValue T) :
    ∃ k, k ≤ 1
      ∧ (LogCalculatedValue.UpdateChange EqualToLast now s).2.valueLog
          = (s.valueLog ++ LogCalculatedValue.pushed EqualToLast now s).drop k := by
  have hf := MemoryCalculatedValue.UpdateChange_frame EqualToLast now s.toMemoryCalculatedValue
  have hv : (MemoryCalculatedValue.UpdateChange EqualToLast now
      s.toMemoryCalculatedValue).2.value = s.value := congrArg CalculatedValue.value hf.1
  cases hb : (MemoryCalculatedValue.UpdateChange EqualToLast now s.toMemoryCalculatedValue).1
  · have hp : LogCalculatedValue.pushed EqualToLast now s = [(s.value, now)] := by
      unfold LogCalculatedValue.pushed
      rw [hb, hv]
      rfl
    rw [LogCalculatedValue.UpdateChange_of_base_false EqualToLast now s hb, hp]
    by_cases hlen : s.logLength < (s.valueLog ++ [(s.value, now)]).length
    · exact ⟨1, le_refl 1, if_pos hlen⟩
    · exact ⟨0, Nat.zero_le 1, if_neg hlen⟩
  · have hp : LogCalculatedValue.pushed EqualToLast now s = [] := by
      unfold LogCalculatedValue.pushed
      rw [hb]
      rfl
    rw [LogCalculatedValue.UpdateChange_of_base_true EqualToLast now s hb, hp]
    exact ⟨0, Nat.zero_le 1, by simp⟩

/-- C16: take a history cell whose log is empty (as constructed), with any capacity
`logLength`, and any trace of calls; let `e1, ..., en` be the entries pushed by `UpdateChange`
since construction or the last `Reset`.  Then `ValueLog()` is exactly the last
`min n logLength` of them in push order (oldest first), its length is `min n logLength`, so
never above `logLength`, and `logLength` itself is unchanged.  Each single `UpdateChange`
only appends at the back and removes at most one entry at the front. -/
theorem c16_log_is_bounded_queue (Calculate : σ → T × σ)
    (EqualToLast : MemoryCalculatedValue T → T → Bool) (s0 : LogCalculatedValue T)
    (w : World σ) (ops : List (Int × LogCalculatedValue.Op T)) (h0 : s0.valueLog = []) :
    LogCalculatedValue.ValueLog (LogCalculatedValue.run Calculate EqualToLast ops s0 w []).1
        = (LogCalculatedValue.run Calculate EqualToLast ops s0 w []).2.2.drop
            ((LogCalculatedValue.run Calculate EqualToLast ops s0 w []).2.2.length
              - min (LogCalculatedValue.run Calculate EqualToLast ops s0 w []).2.2.length
                  s0.logLength)
    ∧ (LogCalculatedValue.ValueLog
          (LogCalculatedValue.run Calculate EqualToLast ops s0 w []).1).length
        = min (LogCalculatedValue.run Calculate EqualToLast ops s0 w []).2.2.length
            s0.logLength
    ∧ (LogCalculatedValue.ValueLog
          (LogCalculatedValue.run Calculate EqualToLast ops s0 w []).1).length ≤ s0.logLength
    ∧ (LogCalculatedValue.run Calculate EqualToLast ops s0 w []).1.logLength = s0.logLength
    ∧ ∀ (now : Int) (s : LogCalculatedValue T),
        ∃ k, k ≤ 1
          ∧ (LogCalculatedValue.UpdateChange EqualToLast now s).2.valueLog
              = (s.valueLog ++ LogCalculatedValue.pushed EqualToLast now s).drop k := by
  have h := LogCalculatedValue.run_log Calculate EqualToLast ops s0 w []
    (by rw [h0]; simp)
  unfold LogCalculatedValue.ValueLog
  generalize (LogCalculatedValue.run Calculate EqualToLast ops s0 w []).2.2 = pushedAll at h
  have hsub : pushedAll.length - min pushedAll.length s0.logLength
      = pushedAll.length - s0.logLength := by omega
  refine ⟨?_, ?_, ?_, h.1, fun now s =>
    LogCalculatedValue.UpdateChange_front_back EqualToLast now s⟩
  · rw [hsub]
    exact h.2
  · rw [h.2, List.length_drop]
    omega
  · rw [h.2, List.length_drop]
    omega

/-- C16 with capacity 3: of five pushed entries (stamped 1001 to 1005) the log keeps the last
three, oldest first. -/
theorem c16_log_is_bounded_queue_witness :
    LogCalculatedValue.ValueLog
        (LogCalculatedValue.run counterCalculate sameAsLast
          [(1001, LogCalculatedValue.Op.updateChange), (1002, LogCalculatedValue.Op.updateChange),
            (1003, LogCalculatedValue.Op.updateChange), (1004, LogCalculatedValue.Op.updateChange),
            (1005, LogCalculatedValue.Op.updateChange)]
          { checkInterval := 1, lastCheckTime := 0, value := 0, lastValue := 0,
            minChangeInterval := 0, lastChangeTime := 1000, valueLog := [], logLength := 3 }
          { ctx := 0, calls := 0 } []).1
      = [(0, 1003), (0, 1004), (0, 1005)]
    ∧ (LogCalculatedValue.ValueLog
        (LogCalculatedValue.run counterCalculate sameAsLast
          [(1001, LogCalculatedValue.Op.updateChange), (1002, LogCalculatedValue.Op.updateChange),
            (1003, LogCalculatedValue.Op.updateChange), (1004, LogCalculatedValue.Op.updateChange),
            (1005, LogCalculatedValue.Op.updateChange)]
          { checkInterval := 1, lastCheckTime := 0, value := 0, lastValue := 0,
            minChangeInterval := 0, lastChangeTime := 1000, valueLog := [], logLength := 3 }
          { ctx := 0, calls := 0 } []).1).length ≤ 3 :=
  ⟨by decide,
    (c16_log_is_bounded_queue counterCalculate sameAsLast
      { checkInterval := 1, lastCheckTime := 0, value := 0, lastValue := 0,
        minChangeInterval := 0, lastChangeTime := 1000, valueLog := [], logLength := 3 }
      { ctx := 0, calls := 0 }
      [(1001, LogCalculatedValue.Op.updateChange), (1002, LogCalculatedValue.Op.updateChange),
        (1003, LogCalculatedValue.Op.updateChange), (1004, LogCalculatedValue.Op.updateChange),
        (1005, LogCalculatedValue.Op.updateChange)] rfl).2.2.1⟩

/-! ## `Get` and `LazyGet` of the tracked cell against the base class -/

/-- The value `CalculatedValue::Get` returns is the `value` field it leaves. -/
theorem CalculatedValue.Get_fst_eq_value (Calculate : σ → T × σ) (now : Int)
    (s : CalculatedValue T) (w : World σ) :
    (CalculatedValue.Get Calculate now s w).1
      = (CalculatedValue.Get Calculate now s w).2.1.value := by
  by_cases h : CalculatedValue.mustRecompute now s
  · rw [CalculatedValue.Get_of_mustRecompute Calculate now s w h]
  · rw [CalculatedValue.Get_of_not_mustRecompute Calculate now s w h]

/-- The first statement of the override, `this->value = CalculatedValue<T>::Get();`, leaves
exactly the base-class fields the base `Get` leaves. -/
theorem MemoryCalculatedValue.afterBaseGet_eq (Calculate : σ → T × σ) (now : Int)
    (s : MemoryCalculatedValue T) (w : World σ) :
    MemoryCalculatedValue.afterBaseGet Calculate now s w
      = ({ s with toCalculatedValue :=
            (CalculatedValue.Get Calculate now s.toCalculatedValue w).2.1 },
          (CalculatedValue.Get Calculate now s.toCalculatedValue w).2.2) := by
  have hv := CalculatedValue.Get_fst_eq_value Calculate now s.toCalculatedValue w
  unfold MemoryCalculatedValue.afterBaseGet
  simp only [hv]

/-- C17: the override `MemoryCalculatedValue::Get` coincides with the specified composition
(base `Get`, then one `UpdateChange`, returning the value).  From the same cached state it
returns the value the base `Get` returns, invokes `Calculate` under the same condition (the
context afterwards is the same), and leaves the same base-class fields (`value`,
`lastCheckTime`, `checkInterval`); the cell afterwards is the one a single `UpdateChange`
leaves when run on the base result, so only `lastValue` and `lastChangeTime` can differ
besides. -/
theorem c17_tracked_get_refines_base (Calculate : σ → T × σ)
    (EqualToLast : MemoryCalculatedValue T → T → Bool) (now : Int)
    (s : MemoryCalculatedValue T) (w : World σ) :
    MemoryCalculatedValue.Get Calculate EqualToLast now s w
        = MemoryCalculatedValue.GetAsSpecified Calculate EqualToLast now s w
    ∧ (MemoryCalculatedValue.Get Calculate EqualToLast now s w).1
        = (CalculatedValue.Get Calculate now s.toCalculatedValue w).1
    ∧ (MemoryCalculatedValue.Get Calculate EqualToLast now s w).2.2
        = (CalculatedValue.Get Calculate now s.toCalculatedValue w).2.2
    ∧ ((MemoryCalculatedValue.Get Calculate EqualToLast now s w).2.2.calls = w.calls + 1
        ↔ CalculatedValue.mustRecompute now s.toCalculatedValue)
    ∧ (MemoryCalculatedValue.Get Calculate EqualToLast now s w).2.1.toCalculatedValue
        = (CalculatedValue.Get Calculate now s.toCalculatedValue w).2.1
    ∧ (MemoryCalculatedValue.Get Calculate EqualToLast now s w).2.1
        = (MemoryCalculatedValue.UpdateChange EqualToLast now
            { toCalculatedValue := (CalculatedValue.Get Calculate now s.toCalculatedValue w).2.1
              lastValue := s.lastValue
              minChangeInterval := s.minChangeInterval
              lastChangeTime := s.lastChangeTime }).2
    ∧ (MemoryCalculatedValue.Get Calculate EqualToLast now s w).2.1.minChangeInterval
        = s.minChangeInterval := by
  have ha := MemoryCalculatedValue.afterBaseGet_eq Calculate now s w
  have hv := CalculatedValue.Get_fst_eq_value Calculate now s.toCalculatedValue w
  have hget : MemoryCalculatedValue.Get Calculate EqualToLast now s w
      = ((CalculatedValue.Get Calculate now s.toCalculatedValue w).1,
          (MemoryCalculatedValue.UpdateChange EqualToLast now
            { toCalculatedValue := (CalculatedValue.Get Calculate now s.toCalculatedValue w).2.1
              lastValue := s.lastValue
              minChangeInterval := s.minChangeInterval
              lastChangeTime := s.lastChangeTime }).2,
          (CalculatedValue.Get Calculate now s.toCalculatedValue w).2.2) := by
    have hf := MemoryCalculatedValue.UpdateChange_frame EqualToLast now
      (MemoryCalculatedValue.afterBaseGet Calculate now s w).1
    have hval : (MemoryCalculatedValue.UpdateChange EqualToLast now
        (MemoryCalculatedValue.afterBaseGet Calculate now s w).1).2.value
        = (CalculatedValue.Get Calculate now s.toCalculatedValue w).1 := by
      rw [congrArg CalculatedValue.value hf.1, ha, hv]
    unfold MemoryCalculatedValue.Get
    simp only [hval]
    rw [ha]
  have hf := MemoryCalculatedValue.UpdateChange_frame EqualToLast now
    ({ toCalculatedValue := (CalculatedValue.Get Calculate now s.toCalculatedValue w).2.1
       lastValue := s.lastValue
       minChangeInterval := s.minChangeInterval
       lastChangeTime := s.lastChangeTime } : MemoryCalculatedValue T)
  refine ⟨hget, ?_, ?_, ?_, ?_, ?_, ?_⟩
  · rw [hget]
  · rw [hget]
  · rw [hget]
    constructor
    · exact CalculatedValue.mustRecompute_of_calls Calculate now s.toCalculatedValue w
    · intro h
      rw [CalculatedValue.Get_of_mustRecompute Calculate now s.toCalculatedValue w h]
  · rw [hget]
    exact hf.1
  · rw [hget]
  · rw [hget]
    exact hf.2

/-- C18: `LazyGet` of a tracked cell and of a history cell returns the stored `value` and
leaves every field and the context as they were, `Calculate` not being invoked, in every state
including `lastCheckTime = 0`; on the same never-computed base state `CalculatedValue::LazyGet`
does invoke `Calculate`. -/
theorem c18_tracked_lazyGet (Calculate : σ → T × σ)
    (EqualToLast : MemoryCalculatedValue T → T → Bool) (now : Int)
    (s : MemoryCalculatedValue T) (h : LogCalculatedValue T) (w : World σ)
    (acc : List (T × Int)) :
    MemoryCalculatedValue.LazyGet s = (s.value, s)
    ∧ LogCalculatedValue.LazyGet h = (h.value, h)
    ∧ MemoryCalculatedValue.Op.exec Calculate EqualToLast now
        MemoryCalculatedValue.Op.lazyGet s w = (s, w, [])
    ∧ LogCalculatedValue.Op.exec Calculate EqualToLast now
        LogCalculatedValue.Op.lazyGet h w acc = (h, w, acc)
    ∧ (s.lastCheckTime = 0 →
        (CalculatedValue.LazyGet Calculate now s.toCalculatedValue w).2.2.calls = w.calls + 1
        ∧ (CalculatedValue.LazyGet Calculate now s.toCalculatedValue w).1
            = (Calculate w.ctx).1) := by
  refine ⟨rfl, rfl, rfl, rfl, fun h0 => ?_⟩
  rw [CalculatedValue.LazyGet_of_eq_zero Calculate now s.toCalculatedValue w h0,
    CalculatedValue.Get_of_mustRecompute Calculate now s.toCalculatedValue w (Or.inl h0)]
  exact ⟨rfl, rfl⟩

/-- C18 on freshly constructed cells (never computed, `value` still 0): `LazyGet` of the
tracked and of the history cell returns 0 and touches nothing, while the base-class `LazyGet`
on the same fields computes and returns 1. -/
theorem c18_tracked_lazyGet_witness :
    (MemoryCalculatedValue.new 1000 10 0 0 0 : MemoryCalculatedValue Nat).lastCheckTime = 0
    ∧ MemoryCalculatedValue.LazyGet (MemoryCalculatedValue.new 1000 10 0 0 0)
        = ((0 : Nat), MemoryCalculatedValue.new 1000 10 0 0 0)
    ∧ (CalculatedValue.LazyGet counterCalculate 1001
        (MemoryCalculatedValue.new 1000 10 0 0 0).toCalculatedValue
        { ctx := 0, calls := 0 }).2.2.calls = 0 + 1
    ∧ (CalculatedValue.LazyGet counterCalculate 1001
        (MemoryCalculatedValue.new 1000 10 0 0 0).toCalculatedValue
        { ctx := 0, calls := 0 }).1 = (counterCalculate 0).1 :=
  ⟨rfl,
    (c18_tracked_lazyGet counterCalculate sameAsLast 1001
      (MemoryCalculatedValue.new 1000 10 0 0 0) (LogCalculatedValue.new 1000 10 0 0 0)
      { ctx := 0, calls := 0 } []).1,
    (c18_tracked_lazyGet counterCalculate sameAsLast 1001
      (MemoryCalculatedValue.new 1000 10 0 0 0) (LogCalculatedValue.new 1000 10 0 0 0)
      { ctx := 0, calls := 0 } []).2.2.2.2 rfl⟩

/-! ## `lastChangeTime` never runs ahead of a non-decreasing clock -/

/-- C20: `Format` of the boolean adapter returns `"true"` when a fresh `Calculate()` yields
`true` and `"false"` otherwise; it invokes `Calculate` on every call, whatever `lastCheckTime`
and `checkInterval` are, and leaves the cell (cached `value`, `lastCheckTime`) as it was.  Its
output can differ from what `Get` and `LazyGet` return at the same moment: on a cell caching
`true` whose fact has turned `false`, `Format` says `"false"` while both still return
`true`. -/
theorem c20_bool_format (Calculate : σ → Bool × σ) (s : CalculatedValue Bool) (w : World σ) :
    ((Calculate w.ctx).1 = true → (BoolCalculatedValue.Format Calculate s w).1 = "true")
    ∧ ((Calculate w.ctx).1 = false → (BoolCalculatedValue.Format Calculate s w).1 = "false")
    ∧ (BoolCalculatedValue.Format Calculate s w).2.1 = s
    ∧ (BoolCalculatedValue.Format Calculate s w).2.2
        = { ctx := (Calculate w.ctx).2, calls := w.calls + 1 }
    ∧ ((BoolCalculatedValue.Format BoolCalculatedValue.flipCalculate
          { checkInterval := 10, lastCheckTime := 1000, value := true }
          { ctx := true, calls := 0 }).1 = "false"
        ∧ (CalculatedValue.Get BoolCalculatedValue.flipCalculate 1001
          { checkInterval := 10, lastCheckTime := 1000, value := true }
          { ctx := true, calls := 0 }).1 = true
        ∧ (CalculatedValue.LazyGet BoolCalculatedValue.flipCalculate 1001
          { checkInterval := 10, lastCheckTime := 1000, value := true }
          { ctx := true, calls := 0 }).1 = true) := by
  refine ⟨fun h => ?_, fun h => ?_, rfl, rfl, rfl, by decide, by decide⟩
  · unfold BoolCalculatedValue.Format
    simp [h]
  · unfold BoolCalculatedValue.Format
    simp [h]

/-- C20 on a cell caching `true` whose context flag makes the next `Calculate` yield
`false`. -/
theorem c20_bool_format_witness :
    (BoolCalculatedValue.flipCalculate true).1 = false
    ∧ (BoolCalculatedValue.Format BoolCalculatedValue.flipCalculate
        { checkInterval := 10, lastCheckTime := 1000, value := true }
        { ctx := true, calls := 0 }).1 = "false" :=
  ⟨rfl,
    (c20_bool_format BoolCalculatedValue.flipCalculate
      { checkInterval := 10, lastCheckTime := 1000, value := true }
      { ctx := true, calls := 0 }).2.1 rfl⟩

end Theorems

end Playerbots
